import Mathlib

/-!
# Greenlight API: optimistic locking, rate limiting, authentication

A shallow embedding of `internal/data/movies.go` and of the middleware and movie
handlers of `cmd/api`, followed by the properties proved about them.

Conventions of the embedding.

* Go integers (`int64` ids, `int32` years and versions, `int` burst) are mathematical
  integers. The Go code performs no arithmetic on them: the only increment,
  `version = version + 1`, is evaluated by the store, which raises an error on a range
  overflow instead of wrapping; such an error is one of the driver failures below.
* A pointer argument that the callee assigns through (`movie *Movie`) is returned as an
  updated value next to the error.
* A Go `error` result is an `Option Error` (`none` is `nil`); a `(value, error)` result is
  an `Except Error value`.
* A nil slice is `none`, a non-nil slice `some l`.
-/

namespace validator

/-- Modelled from the spec: the package `internal/validator` is not under `src/`; it is
taken as its callers use it. A validator holds the recorded errors as pairs of a key and a
message (the Go map `Errors`, with at most one message per key). -/
structure Validator where
  Errors : List (String × String)
deriving DecidableEq, Repr

/-- Modelled from the spec: `validator.New()` of the absent package, an empty validator. -/
def New : Validator := { Errors := [] }

/-- Modelled from the spec: `Valid()` of the absent package, no error has been recorded. -/
def Validator.Valid (v : Validator) : Bool := v.Errors.isEmpty

/-- Modelled from the spec: `AddError(key, message)` of the absent package; the message is
recorded unless the key already has one. -/
def Validator.AddError (v : Validator) (key message : String) : Validator :=
  if v.Errors.any (fun e => e.1 == key) then v
  else { Errors := v.Errors ++ [(key, message)] }

/-- Modelled from the spec: `Check(ok, key, message)` of the absent package; an error is
added when the condition is false. -/
def Validator.Check (v : Validator) (ok : Bool) (key message : String) : Validator :=
  if !ok then v.AddError key message else v

/-- The validator has recorded an error under the key. -/
def Validator.hasKey (v : Validator) (key : String) : Bool :=
  v.Errors.any fun e => e.1 == key

/-- Modelled from the spec: `validator.Unique(values)` of the absent package; the number of
values equals the number of distinct values. -/
def Unique (values : List String) : Bool :=
  values.length == values.dedup.length

end validator

namespace strings

/-- The pieces of a list of characters between the occurrences of a separator. -/
def splitChars (sep : Char) : List Char → List (List Char)
  | [] => [[]]
  | c :: cs =>
      if c = sep then [] :: splitChars sep cs
      else
        match splitChars sep cs with
        | [] => [[c]]
        | piece :: pieces => (c :: piece) :: pieces

/-- The function `strings.Split(s, sep)` of the Go standard library for a separator of one
character: the substrings of `s` between the occurrences of the separator. -/
def Split (s : String) (sep : Char) : List String :=
  (splitChars sep s.data).map String.mk

end strings

namespace data

open validator

/-! ## The movies table behind `sql.DB` -/

/-- The struct `Movie` of `internal/data/movies.go`; also a row of the table `movies`. -/
structure Movie where
  ID : Int
  CreatedAt : Int
  Title : String
  Year : Int
  Runtime : Int
  Genres : Option (List String)
  Version : Int
deriving DecidableEq, Repr

/-- The error values that the model layer hands to its callers: the two sentinels
`ErrRecordNotFound` and `ErrEditConflict`, and any other error (a driver error such as a
timeout), carried by its message. -/
inductive Error where
  | ErrRecordNotFound
  | ErrEditConflict
  | other (msg : String)
deriving DecidableEq, Repr

/-- What `database/sql` reports for a statement: `sql.ErrNoRows` when `Scan` finds no row
in the result, or a driver error. -/
inductive SqlError where
  | ErrNoRows
  | driver (msg : String)
deriving DecidableEq, Repr

/-- The persistent state reached through the connection pool: the rows of `movies`, the
next value of the `bigserial` sequence behind `id`, the column default of `version` and
the store clock that fills `created_at`. -/
structure Store where
  movies : List Movie
  nextID : Int
  versionDefault : Int
  now : Int
deriving DecidableEq, Repr

/-- The connection pool `*sql.DB`: the store it talks to, and the failure (timeout of the
3-second context, lost connection, error raised by the store) that the driver reports for
a statement instead of executing it, when there is one. -/
structure DB where
  store : Store
  failure : Option String
deriving DecidableEq, Repr

/-- The four statements that `movies.go` sends, with their placeholder arguments. -/
inductive Stmt where
  | insertMovie (title : String) (year runtime : Int) (genres : Option (List String))
  | selectMovie (id : Int)
  | updateMovie (title : String) (year runtime : Int) (genres : Option (List String))
      (id version : Int)
  | deleteMovie (id : Int)
deriving DecidableEq, Repr

/-- The predicate `WHERE id = $5 AND version = $6` of the update statement. -/
def Stmt.updateHits (id version : Int) (row : Movie) : Bool :=
  decide (row.ID = id) && decide (row.Version = version)

/-- The assignment `SET title = $1, year = $2, runtime = $3, genres = $4,
version = version + 1` of the update statement. -/
def Stmt.updateSet (title : String) (year runtime : Int) (genres : Option (List String))
    (row : Movie) : Movie :=
  { row with Title := title, Year := year, Runtime := runtime, Genres := genres,
             Version := row.Version + 1 }

/-- Execution of a statement by the store: the new store and the rows the statement
yields (the `RETURNING` rows, the selected rows, or the deleted rows).

* `INSERT INTO movies (title, year, runtime, genres) VALUES ... RETURNING id, created_at,
  version`
* `SELECT ... FROM movies WHERE id = $1`
* `UPDATE movies SET ..., version = version + 1 WHERE id = $5 AND version = $6
  RETURNING version`
* `DELETE FROM movies WHERE id = $1` -/
def Store.run (s : Store) : Stmt → Store × List Movie
  | .insertMovie title year runtime genres =>
      let row : Movie :=
        { ID := s.nextID, CreatedAt := s.now, Title := title, Year := year,
          Runtime := runtime, Genres := genres, Version := s.versionDefault }
      ({ s with movies := s.movies ++ [row], nextID := s.nextID + 1 }, [row])
  | .selectMovie id => (s, s.movies.filter fun row => decide (row.ID = id))
  | .updateMovie title year runtime genres id version =>
      ({ s with movies := s.movies.map fun row =>
            if Stmt.updateHits id version row then
              Stmt.updateSet title year runtime genres row
            else row },
       (s.movies.filter (Stmt.updateHits id version)).map
          (Stmt.updateSet title year runtime genres))
  | .deleteMovie id =>
      ({ s with movies := s.movies.filter fun row => !decide (row.ID = id) },
       s.movies.filter fun row => decide (row.ID = id))

/-- The method `QueryRowContext(ctx, query, args...).Scan(...)`: the driver failure if there
is one, otherwise the statement is executed and the first row of its result is scanned,
`sql.ErrNoRows` when the result is empty. -/
def DB.QueryRowContext (db : DB) (q : Stmt) : DB × Except SqlError Movie :=
  match db.failure with
  | some msg => (db, .error (.driver msg))
  | none =>
      match db.store.run q with
      | (s, []) => ({ db with store := s }, .error .ErrNoRows)
      | (s, row :: _) => ({ db with store := s }, .ok row)

/-- A value of `sql.Result`, of which the code reads `RowsAffected()`. -/
structure Result where
  RowsAffected : Except String Int

/-- The method `ExecContext(ctx, query, args...)`: the driver failure if there is one,
otherwise the statement is executed and the number of rows it touched is reported. -/
def DB.ExecContext (db : DB) (q : Stmt) : DB × Except SqlError Result :=
  match db.failure with
  | some msg => (db, .error (.driver msg))
  | none =>
      let out := db.store.run q
      ({ db with store := out.1 }, .ok { RowsAffected := .ok out.2.length })

/-! ## `MovieModel` -/

/-- The struct `MovieModel`, which wraps the connection pool. -/
structure MovieModel where
  DB : DB
deriving DecidableEq, Repr

/-- What a method taking `movie *Movie` leaves behind: the model (its store may have
changed), the movie as assigned through the pointer, and the returned error. -/
structure Written where
  m : MovieModel
  movie : Movie
  err : Option Error
deriving DecidableEq, Repr

/-- The method `MovieModel.Insert`: the error of `QueryRowContext(...).Scan(&movie.ID,
&movie.CreatedAt, &movie.Version)` is returned as it is. -/
def MovieModel.Insert (m : MovieModel) (movie : Movie) : Written :=
  match m.DB.QueryRowContext
      (.insertMovie movie.Title movie.Year movie.Runtime movie.Genres) with
  | (db, .ok row) =>
      { m := { DB := db },
        movie := { movie with ID := row.ID, CreatedAt := row.CreatedAt,
                              Version := row.Version },
        err := none }
  | (db, .error .ErrNoRows) =>
      { m := { DB := db }, movie := movie, err := some (.other "sql: no rows in result set") }
  | (db, .error (.driver msg)) =>
      { m := { DB := db }, movie := movie, err := some (.other msg) }

/-- The method `MovieModel.Get`: ids below 1 are answered `ErrRecordNotFound` without a
query; otherwise `sql.ErrNoRows` becomes `ErrRecordNotFound` and any other error is
returned as it is. -/
def MovieModel.Get (m : MovieModel) (id : Int) : MovieModel × Except Error Movie :=
  if id < 1 then (m, .error .ErrRecordNotFound)
  else
    match m.DB.QueryRowContext (.selectMovie id) with
    | (db, .error .ErrNoRows) => ({ DB := db }, .error .ErrRecordNotFound)
    | (db, .error (.driver msg)) => ({ DB := db }, .error (.other msg))
    | (db, .ok row) => ({ DB := db }, .ok row)

/-- The method `MovieModel.Update`: the statement carries `movie.ID` and `movie.Version`
in its predicate, `Scan(&movie.Version)` stores the returned version, `sql.ErrNoRows`
becomes `ErrEditConflict` and any other error is returned as it is. -/
def MovieModel.Update (m : MovieModel) (movie : Movie) : Written :=
  match m.DB.QueryRowContext
      (.updateMovie movie.Title movie.Year movie.Runtime movie.Genres movie.ID
        movie.Version) with
  | (db, .error .ErrNoRows) =>
      { m := { DB := db }, movie := movie, err := some .ErrEditConflict }
  | (db, .error (.driver msg)) =>
      { m := { DB := db }, movie := movie, err := some (.other msg) }
  | (db, .ok row) =>
      { m := { DB := db }, movie := { movie with Version := row.Version }, err := none }

/-- The method `MovieModel.Delete`: ids below 1 are answered `ErrRecordNotFound` without a
statement; an error of `ExecContext` or of `RowsAffected` is returned as it is; zero
affected rows is `ErrRecordNotFound`. -/
def MovieModel.Delete (m : MovieModel) (id : Int) : MovieModel × Option Error :=
  if id < 1 then (m, some .ErrRecordNotFound)
  else
    match m.DB.ExecContext (.deleteMovie id) with
    | (db, .error .ErrNoRows) => ({ DB := db }, some (.other "sql: no rows in result set"))
    | (db, .error (.driver msg)) => ({ DB := db }, some (.other msg))
    | (db, .ok result) =>
        match result.RowsAffected with
        | .error msg => ({ DB := db }, some (.other msg))
        | .ok rowsAffected =>
            if rowsAffected = 0 then ({ DB := db }, some .ErrRecordNotFound)
            else ({ DB := db }, none)

/-- The function `ValidateMovie`. The argument `year` is the reading `time.Now().Year()`;
`Runtime` is the integer type `data.Runtime`; `len` of a nil slice is 0 and `len` of a
string counts bytes. -/
def ValidateMovie (year : Int) (v : Validator) (movie : Movie) : Validator :=
  let v := v.Check (decide (movie.Title ≠ "")) "title" "must be provided"
  let v := v.Check (decide (movie.Title.utf8ByteSize ≤ 500)) "title"
    "must not be more than 500 bytes long"
  let v := v.Check (decide (movie.Year ≠ 0)) "year" "must be provided"
  let v := v.Check (decide (movie.Year ≥ 1888)) "year" "must be greater than 1888"
  let v := v.Check (decide (movie.Year ≤ year)) "year" "must not be in the future"
  let v := v.Check (decide (movie.Runtime ≠ 0)) "runtime" "must be provided"
  let v := v.Check (decide (movie.Runtime > 0)) "runtime" "must be a positive integer"
  let v := v.Check (decide (movie.Genres ≠ none)) "genres" "must be provided"
  let v := v.Check (decide ((movie.Genres.getD []).length ≥ 1)) "genres"
    "must contain at least 1 genre"
  let v := v.Check (decide ((movie.Genres.getD []).length ≤ 5)) "genres"
    "must not contain more than 5 genres"
  v.Check (Unique (movie.Genres.getD [])) "genres" "must not contain duplicate values"

/-! ## The lifecycle of a record -/

/-- A call of one of the four methods of `MovieInterface`. -/
inductive Op where
  | Insert (movie : Movie)
  | Get (id : Int)
  | Update (movie : Movie)
  | Delete (id : Int)
deriving DecidableEq, Repr

/-- The model after a call of one of the four methods. -/
def MovieModel.apply (m : MovieModel) : Op → MovieModel
  | .Insert movie => (m.Insert movie).m
  | .Get id => (m.Get id).1
  | .Update movie => (m.Update movie).m
  | .Delete id => (m.Delete id).1

/-- The model after a sequence of calls, executed one after the other. -/
def MovieModel.run (m : MovieModel) (ops : List Op) : MovieModel :=
  ops.foldl MovieModel.apply m

/-- The stored version of the record with the given id: the version of the first row
with that id, if there is one. -/
def Store.version (s : Store) (id : Int) : Option Int :=
  (s.movies.find? fun row => decide (row.ID = id)).map fun row => row.Version

/-- The primary key of `movies` and its sequence: no two rows share an id, and every id
in use has been handed out by the sequence already. -/
def Store.Keyed (s : Store) : Prop :=
  (s.movies.map fun row => row.ID).Nodup ∧ ∀ row ∈ s.movies, row.ID < s.nextID

instance (s : Store) : Decidable s.Keyed := by
  unfold Store.Keyed
  infer_instance

/-- Two calls of `Update` as the store serialises them: the errors of the call executed
first and of the call executed second, and the model after both. -/
def MovieModel.updateTwice (m : MovieModel) (first second : Movie) :
    Option Error × Option Error × MovieModel :=
  let one := m.Update first
  let two := one.m.Update second
  (one.err, two.err, two.m)

/-! ## Users -/

/-- Modelled from the spec: `internal/data/users.go` is not under `src/`. Of a user record
the code of `cmd/api` reads the id and the activation flag. -/
structure UserRecord where
  ID : Int
  Activated : Bool
deriving DecidableEq, Repr

/-- Modelled from the spec: a value of type `*data.User` is either the sentinel
`data.Anonymous` ("the anonymous identity carries no permissions and is never activated")
or a record loaded from the store. The fields of the sentinel are the zero values;
`IsAnonymous` tells the sentinel from every loaded record. -/
inductive User where
  | Anonymous
  | loaded (record : UserRecord)
deriving DecidableEq, Repr

/-- The field `ID` read through the pointer. -/
def User.ID : User → Int
  | .Anonymous => 0
  | .loaded record => record.ID

/-- The field `Activated` read through the pointer. -/
def User.Activated : User → Bool
  | .Anonymous => false
  | .loaded record => record.Activated

/-- Modelled from the spec: the method `IsAnonymous` of the absent `users.go`. -/
def User.IsAnonymous : User → Bool
  | .Anonymous => true
  | .loaded _ => false

/-- Modelled from the spec: the token scope `data.ScopeAuthentication` of the absent
`tokens.go`, the scope "authentication". -/
def ScopeAuthentication : String := "authentication"

/-- Modelled from the spec: the type `data.Permissions` of the absent `permissions.go`, a
flat set of permission codes; `Include` is membership. -/
def Permissions.Include (permissions : List String) (code : String) : Bool :=
  permissions.contains code

end data

namespace rate

/-! ## The token bucket -/

/-- One second and one minute of `time.Duration`, in nanoseconds. -/
def Second : Int := 1000000000

/-- The duration `time.Minute`. -/
def Minute : Int := 60 * Second

/-- Modelled from the spec: the package `golang.org/x/time/rate` is not under `src/`. A
limiter is a token bucket "holding a capacity and refill rate": the refill rate in tokens
per second, the burst capacity, the tokens it holds and the time of its last refill
computation (none before the first call). Rates and token counts are exact rationals
where the library computes in `float64`; times are nanoseconds. -/
structure Limiter where
  limit : ℚ
  burst : Int
  tokens : ℚ
  last : Option Int
deriving DecidableEq, Repr

/-- Modelled from the spec: `rate.NewLimiter(r, b)`; "a new bucket is created with full
burst capacity". -/
def NewLimiter (r : ℚ) (b : Int) : Limiter :=
  { limit := r, burst := b, tokens := b, last := none }

/-- Modelled from the spec: the refill computation at time `now`; the tokens that
accrued at the refill rate since the last computation are added, up to the capacity. -/
def Limiter.refill (lim : Limiter) (now : Int) : ℚ :=
  let elapsed : Int :=
    match lim.last with
    | none => 0
    | some t => max 0 (now - t)
  min (lim.burst : ℚ) (lim.tokens + lim.limit * elapsed / Second)

/-- Modelled from the spec: `Allow()` at time `now`; "each call attempts to consume one
token; if none is available, returns not-allowed without mutating bucket state beyond
the refill computation". -/
def Limiter.Allow (lim : Limiter) (now : Int) : Limiter × Bool :=
  let tokens := lim.refill now
  if 1 ≤ tokens then ({ lim with tokens := tokens - 1, last := some now }, true)
  else ({ lim with tokens := tokens, last := some now }, false)

end rate

namespace mailer

/-! ## `internal/mailer/mailer.go` -/

/-- The message built by `Send`: the three headers, the plain-text body and the HTML
alternative. -/
structure Message where
  To : String
  From : String
  Subject : String
  plainBody : String
  htmlBody : String
deriving DecidableEq, Repr

/-- The struct `Mailer`: the sender, and what stands behind its `*mail.Dialer` and behind
the template files, both outside `src/`.

* `DialAndSend attempt msg` is the error of the call `m.dialer.DialAndSend(msg)` made as
  the given attempt (1, 2 or 3) of one `Send`, `none` for nil;
* `ParseFiles` is `template.ParseFiles`, yielding the parsed template set by its name;
* `ExecuteTemplate tmpl name data` is the text that the named template renders. -/
structure Mailer where
  sender : String
  DialAndSend : Nat → Message → Option String
  ParseFiles : String → Except String String
  ExecuteTemplate : String → String → String → Except String String

/-- What a call of `Send` leaves behind: the returned error (`none` is nil), the number
of calls of `DialAndSend`, and the number of 500 millisecond sleeps. -/
structure Sent where
  err : Option String
  attempts : Nat
  sleeps : Nat
deriving DecidableEq, Repr

/-- The loop `for i := 1; i <= 3; i++` of `Send`, entered at attempt `i` with `left`
iterations to go: a successful attempt returns nil at once, a failed one sleeps and goes
on, and after the last iteration the statement `return nil` follows the loop. -/
def Mailer.retry (m : Mailer) (msg : Message) : Nat → Nat → Sent
  | 0, i => { err := none, attempts := i - 1, sleeps := i - 1 }
  | left + 1, i =>
      match m.DialAndSend i msg with
      | none => { err := none, attempts := i, sleeps := i - 1 }
      | some _ => m.retry msg left (i + 1)

/-- The method `Mailer.Send`. -/
def Mailer.Send (m : Mailer) (recipient templateFile data : String) : Sent :=
  match m.ParseFiles ("internal/mailer/templates/" ++ templateFile) with
  | .error err => { err := some err, attempts := 0, sleeps := 0 }
  | .ok tmpl =>
      match m.ExecuteTemplate tmpl "subject" data with
      | .error err => { err := some err, attempts := 0, sleeps := 0 }
      | .ok subject =>
          match m.ExecuteTemplate tmpl "plainBody" data with
          | .error err => { err := some err, attempts := 0, sleeps := 0 }
          | .ok plainBody =>
              match m.ExecuteTemplate tmpl "htmlBody" data with
              | .error err => { err := some err, attempts := 0, sleeps := 0 }
              | .ok htmlBody =>
                  m.retry
                    { To := recipient, From := m.sender, Subject := subject,
                      plainBody := plainBody, htmlBody := htmlBody } 3 1

/-- A mailer whose SMTP server is unreachable: every `DialAndSend` fails. Its templates
render. -/
def unreachableMailer : Mailer :=
  { sender := "Greenlight <no-reply@greenlight.alexedwards.net>",
    DialAndSend := fun _ _ => some "dial tcp: connection refused",
    ParseFiles := fun name => .ok name,
    ExecuteTemplate := fun _ name data => .ok (name ++ " for " ++ data) }

end mailer

namespace api

open data validator

/-! ## Requests, responses and handlers -/

/-- The payloads that the handlers pass to `writeJSON`: `envelope{"movie": movie}`,
`envelope{"message": text}`, and the status report of `healthcheckHandler` with the
environment and the version. -/
inductive envelope where
  | movie (movie : Movie)
  | message (text : String)
  | health (environment version : String)
deriving DecidableEq, Repr

/-- What a handler writes to the client: the JSON written by `writeJSON`, the response of
one of the helpers of `errors.go` (not under `src/`), each named after its helper, or a
bare status written by `w.WriteHeader(code)`. -/
inductive Response where
  | json (status : Nat) (data : envelope)
  | serverError (err : Error)
  | notFound
  | badRequest (err : String)
  | failedValidation (errors : List (String × String))
  | editConflict
  | rateLimitExceeded
  | invalidAuthenticationToken
  | authenticationRequired
  | inactiveAccount
  | notPermitted
  | methodNotAllowed
  | status (code : Nat)
deriving DecidableEq, Repr

/-- The `http.ResponseWriter` of one request: the response headers set so far and what
has been written. -/
structure ResponseWriter where
  Header : List (String × String)
  written : List Response
deriving DecidableEq, Repr

/-- The `*http.Request`: method, URL, remote address, headers, body, and the user stored
in the request context (none until `contextSetUser`). -/
structure Request where
  Method : String
  URL : String
  RemoteAddr : String
  Header : List (String × String)
  Body : String
  user : Option User
deriving DecidableEq, Repr

/-- The method `r.Header.Get(key)`: the first value of the key, the empty string when the
header is absent. -/
def Request.HeaderGet (r : Request) (key : String) : String :=
  match r.Header.find? fun h => h.1 == key with
  | some h => h.2
  | none => ""

/-- The method `w.Header().Add(key, value)`. -/
def ResponseWriter.HeaderAdd (w : ResponseWriter) (key value : String) : ResponseWriter :=
  { w with Header := w.Header ++ [(key, value)] }

/-- The method `w.Header().Set(key, value)`. -/
def ResponseWriter.HeaderSet (w : ResponseWriter) (key value : String) : ResponseWriter :=
  { w with Header := (w.Header.filter fun h => !(h.1 == key)) ++ [(key, value)] }

/-- The state that handlers share outside the process memory of one request: the movie
model with its store, the calendar year of `time.Now()`, the `GetForToken` lookups made
so far (scope and token), and the calls of other requests that the store executes
between the `Get` and the `Update` of `updateMovieHandler`, the only handler that
consults the movie store twice. -/
structure World where
  Movies : MovieModel
  year : Int
  lookups : List (String × String)
  concurrent : List Op
deriving DecidableEq, Repr

/-- What a call of `ServeHTTP` leaves behind: the response writer, the world, and the
panic value when the call panicked. -/
structure Outcome where
  w : ResponseWriter
  world : World
  panicked : Option String
deriving DecidableEq, Repr

/-- The type `http.Handler`. -/
abbrev Handler := ResponseWriter → Request → World → Outcome

/-- The decoded request body of `updateMovieHandler`: the anonymous struct `input`, whose
pointer fields are nil (`none`) when the body omits them. -/
structure updateInput where
  Title : Option String
  Year : Option Int
  Runtime : Option Int
  Genres : Option (List String)
deriving DecidableEq, Repr

/-- The struct `config.limiter`. The rate `rps` is an exact rational where Go has a
`float64`. -/
structure limiter where
  rps : ℚ
  burst : Int
  enabled : Bool
deriving DecidableEq, Repr

/-- The struct `config.cors`. -/
structure cors where
  trustedOrigins : List String
deriving DecidableEq, Repr

/-- The struct `config`, of which the handlers read the limiter settings, the environment
and the trusted origins; the latter two default to what the flags of `main` default to. -/
structure config where
  limiter : limiter
  env : String := "development"
  cors : cors := { trustedOrigins := [] }
deriving DecidableEq, Repr

/-- The struct `application`: the configuration, and the collaborators whose code is not
under `src/`, taken as they are called.

* `GetForToken` is `app.models.Users.GetForToken(scope, token)`,
* `GetAllForUser` is `app.models.Permissions.GetAllForUser(id)`,
* `ValidateTokenPlaintext` is `data.ValidateTokenPlaintext(v, token)`,
* `SplitHostPort` is `net.SplitHostPort`, yielding host and port,
* `readIDParam` and `readJSON` are the helpers of that name, the latter decoding the body
  into the input struct of `updateMovieHandler`,
* `marshal` is the JSON encoding inside the helper `writeJSON`.

The movie model `app.models.Movies` is stateful and lives in the `World`. -/
structure application where
  config : config
  GetForToken : String → String → Except Error UserRecord
  GetAllForUser : Int → Except Error (List String)
  ValidateTokenPlaintext : Validator → String → Validator
  SplitHostPort : String → Except String (String × String)
  readIDParam : Request → Except String Int
  readJSON : Request → Except String updateInput
  marshal : envelope → Except String String

/-- A helper of `errors.go` writes its response and returns. -/
def respond (resp : Response) : Handler := fun w _ world =>
  { w := { w with written := w.written ++ [resp] }, world := world, panicked := none }

/-- The helper `serverErrorResponse(w, r, err)`. -/
def application.serverErrorResponse (_ : application) (w : ResponseWriter) (r : Request)
    (err : Error) (world : World) : Outcome :=
  respond (.serverError err) w r world

/-- The helper `notFoundResponse(w, r)`. -/
def application.notFoundResponse (_ : application) : Handler := respond .notFound

/-- The helper `badRequestResponse(w, r, err)`. -/
def application.badRequestResponse (_ : application) (w : ResponseWriter) (r : Request)
    (err : String) (world : World) : Outcome :=
  respond (.badRequest err) w r world

/-- The helper `failedValidationResponse(w, r, errors)`. -/
def application.failedValidationResponse (_ : application) (w : ResponseWriter)
    (r : Request) (errors : List (String × String)) (world : World) : Outcome :=
  respond (.failedValidation errors) w r world

/-- The helper `editConflictResponse(w, r)`. -/
def application.editConflictResponse (_ : application) : Handler := respond .editConflict

/-- The helper `rateLimitExceededResponse(w, r)`. -/
def application.rateLimitExceededResponse (_ : application) : Handler :=
  respond .rateLimitExceeded

/-- The helper `invalidAuthenticationTokenResponse(w, r)`. -/
def application.invalidAuthenticationTokenResponse (_ : application) : Handler :=
  respond .invalidAuthenticationToken

/-- The helper `authenticationRequiredResponse(w, r)`. -/
def application.authenticationRequiredResponse (_ : application) : Handler :=
  respond .authenticationRequired

/-- The helper `inactiveAccountResponse(w, r)`. -/
def application.inactiveAccountResponse (_ : application) : Handler :=
  respond .inactiveAccount

/-- The helper `notPermittedResponse(w, r)`. -/
def application.notPermittedResponse (_ : application) : Handler := respond .notPermitted

/-- Modelled from the spec: the helper `writeJSON(w, status, data, headers)` of the absent
`helpers.go`; the data is encoded, and on success the headers and the JSON are written
with the status; an encoding error is returned with nothing written. -/
def application.writeJSON (app : application) (w : ResponseWriter) (status : Nat)
    (data : envelope) (headers : List (String × String)) : ResponseWriter × Option Error :=
  match app.marshal data with
  | .error msg => (w, some (.other msg))
  | .ok _ =>
      ({ Header := w.Header ++ headers, written := w.written ++ [.json status data] }, none)

/-- Modelled from the spec: the helper `contextSetUser(r, user)` of the absent
`context.go`; a copy of the request with the user stored in its context. -/
def application.contextSetUser (_ : application) (r : Request) (user : User) : Request :=
  { r with user := some user }

/-- Modelled from the spec: the helper `contextGetUser(r)` of the absent `context.go`; the
user stored in the request context, a panic when there is none. -/
def application.contextGetUser (_ : application) (r : Request) : Except String User :=
  match r.user with
  | some user => .ok user
  | none => .error "missing user value in request context"

/-! ## `cmd/api/middleware.go` -/

/-- The middleware `requireAuthenticatedUser`. -/
def application.requireAuthenticatedUser (app : application) (next : Handler) : Handler :=
  fun w r world =>
    match app.contextGetUser r with
    | .error value => { w := w, world := world, panicked := some value }
    | .ok user =>
        if user.IsAnonymous then app.authenticationRequiredResponse w r world
        else next w r world

/-- The middleware `requireActivatedUser`: the activation check, wrapped in
`requireAuthenticatedUser`. -/
def application.requireActivatedUser (app : application) (next : Handler) : Handler :=
  let fn : Handler := fun w r world =>
    match app.contextGetUser r with
    | .error value => { w := w, world := world, panicked := some value }
    | .ok user =>
        if !user.Activated then app.inactiveAccountResponse w r world
        else next w r world
  app.requireAuthenticatedUser fn

/-- The middleware `requirePermission`: the permission check, wrapped in
`requireActivatedUser`. -/
def application.requirePermission (app : application) (code : String) (next : Handler) :
    Handler :=
  let fn : Handler := fun w r world =>
    match app.contextGetUser r with
    | .error value => { w := w, world := world, panicked := some value }
    | .ok user =>
        match app.GetAllForUser user.ID with
        | .error err => app.serverErrorResponse w r err world
        | .ok permissions =>
            if !Permissions.Include permissions code then app.notPermittedResponse w r world
            else next w r world
  app.requireActivatedUser fn

/-- The middleware `authenticate`. Every call of `GetForToken` is recorded in the world
before its result is used. -/
def application.authenticate (app : application) (next : Handler) : Handler :=
  fun w r world =>
    let w := w.HeaderAdd "Vary" "Authorization"
    let authHeader := r.HeaderGet "Authorization"
    if authHeader = "" then
      next w (app.contextSetUser r .Anonymous) world
    else
      let headerParts := strings.Split authHeader ' '
      if headerParts.length ≠ 2 ∨ headerParts.head? ≠ some "Bearer" then
        app.invalidAuthenticationTokenResponse w r world
      else
        let token := headerParts.getD 1 ""
        let v := validator.New
        if !(app.ValidateTokenPlaintext v token).Valid then
          app.invalidAuthenticationTokenResponse w r world
        else
          let world := { world with lookups := world.lookups ++ [(ScopeAuthentication, token)] }
          match app.GetForToken ScopeAuthentication token with
          | .error .ErrRecordNotFound => app.invalidAuthenticationTokenResponse w r world
          | .error err => app.serverErrorResponse w r err world
          | .ok record => next w (app.contextSetUser r (.loaded record)) world

/-- The struct `client` declared inside `rateLimit`: a limiter and the time the client
was last seen, in nanoseconds. -/
structure client where
  limiter : rate.Limiter
  lastSeen : Int
deriving DecidableEq, Repr

/-- The map `clients` declared inside `rateLimit`, from the host of the remote address to
the client state; `none` is an absent key. The map belongs to the closure: no other
handler can reach it. -/
abbrev clients := String → Option client

/-- One pass of the goroutine of `rateLimit` that wakes every minute, at time `now`: under
the lock it deletes every entry whose `lastSeen` lies more than three minutes back. -/
def sweep (now : Int) (cs : clients) : clients := fun ip =>
  match cs ip with
  | some c => if now - c.lastSeen > 3 * rate.Minute then none else some c
  | none => none

/-- The handler returned by `rateLimit`, run on the client map `cs` at time `now` (the
reading of `time.Now()`): the client map it leaves and the outcome of the request. The
section between `mu.Lock()` and `mu.Unlock()` is one step. -/
def application.rateLimit (app : application) (next : Handler) (cs : clients) (now : Int)
    (w : ResponseWriter) (r : Request) (world : World) : clients × Outcome :=
  if app.config.limiter.enabled then
    match app.SplitHostPort r.RemoteAddr with
    | .error err => (cs, app.serverErrorResponse w r (.other err) world)
    | .ok (ip, _) =>
        let found : client :=
          match cs ip with
          | some c => c
          | none =>
              { limiter := rate.NewLimiter app.config.limiter.rps app.config.limiter.burst,
                lastSeen := 0 }
        let seen : client := { found with lastSeen := now }
        let allowed := seen.limiter.Allow now
        let cs := Function.update cs ip (some { seen with limiter := allowed.1 })
        if !allowed.2 then (cs, app.rateLimitExceededResponse w r world)
        else (cs, next w r world)
  else (cs, next w r world)

/-- What reaches the rate limiter: a request at a time, with its response writer and the
world it is served in, or a pass of the sweeping goroutine at a time. -/
inductive Event where
  | request (now : Int) (w : ResponseWriter) (r : Request) (world : World)
  | sweep (now : Int)

/-- A request that went through `rateLimit`, with the outcome it got. -/
structure Served where
  w : ResponseWriter
  r : Request
  world : World
  out : Outcome

/-- The rate limiter run over a sequence of events, one locked section after the other:
the final client map and the requests served, in order. -/
def application.serve (app : application) (next : Handler) :
    clients → List Event → clients × List Served
  | cs, [] => (cs, [])
  | cs, .sweep now :: rest => app.serve next (sweep now cs) rest
  | cs, .request now w r world :: rest =>
      let one := app.rateLimit next cs now w r world
      let more := app.serve next one.1 rest
      (more.1, { w := w, r := r, world := world, out := one.2 } :: more.2)

/-- The requests of the client `ip` in a sequence of events are spaced more than `1 / rps`
seconds apart: each of them comes more than that after the previous one (`last` is the
time of the previous one, if there was one). -/
def application.spaced (app : application) (ip : String) : Option Int → List Event → Prop
  | _, [] => True
  | last, .sweep _ :: rest => app.spaced ip last rest
  | last, .request now _ r _ :: rest =>
      match app.SplitHostPort r.RemoteAddr with
      | .ok (host, _) =>
          if host = ip then
            (∀ t, last = some t →
              1 / app.config.limiter.rps < ((now - t : Int) : ℚ) / rate.Second) ∧
            app.spaced ip (some now) rest
          else app.spaced ip last rest
      | .error _ => app.spaced ip last rest

/-- The bucket of the client `ip` is steady: the client is not tracked, or its bucket is
one token below its capacity since the client's last request at time `last`. -/
def application.steady (app : application) (ip : String) (cs : clients)
    (last : Option Int) : Prop :=
  cs ip = none ∨
    ∃ c t, cs ip = some c ∧ last = some t ∧
      c.limiter = { limit := app.config.limiter.rps, burst := app.config.limiter.burst,
                    tokens := app.config.limiter.burst - 1, last := some t }

/-- The limiter that the request path finds or creates for a client. -/
def application.limiterOf (app : application) (cs : clients) (ip : String) : rate.Limiter :=
  match cs ip with
  | some c => c.limiter
  | none => rate.NewLimiter app.config.limiter.rps app.config.limiter.burst

/-- A handler that writes nothing and changes nothing; behind a wrapper it shows what
the wrapper itself writes. -/
def quiet : Handler := fun w _ world => { w := w, world := world, panicked := none }

/-! ## `cmd/api/movies.go` -/

/-- The four conditional assignments of `updateMovieHandler` that copy the values of the
request body to the movie record: a field of the input that is not nil replaces the
field of the record. -/
def updateInput.copyTo (input : updateInput) (movie : Movie) : Movie :=
  let movie := match input.Title with
    | some title => { movie with Title := title }
    | none => movie
  let movie := match input.Year with
    | some year => { movie with Year := year }
    | none => movie
  let movie := match input.Runtime with
    | some runtime => { movie with Runtime := runtime }
    | none => movie
  match input.Genres with
  | some genres => { movie with Genres := some genres }
  | none => movie

/-- The handler `updateMovieHandler`. Between its `Get` and its `Update` the store
executes the calls of other requests listed in the world. -/
def application.updateMovieHandler (app : application) : Handler := fun w r world =>
  match app.readIDParam r with
  | .error _ => app.notFoundResponse w r world
  | .ok id =>
      match world.Movies.Get id with
      | (m, .error .ErrRecordNotFound) =>
          app.notFoundResponse w r { world with Movies := m }
      | (m, .error err) => app.serverErrorResponse w r err { world with Movies := m }
      | (m, .ok movie) =>
          let world := { world with Movies := m }
          match app.readJSON r with
          | .error err => app.badRequestResponse w r err world
          | .ok input =>
              let movie := input.copyTo movie
              let v := ValidateMovie world.year validator.New movie
              if !v.Valid then app.failedValidationResponse w r v.Errors world
              else
                let world :=
                  { world with Movies := world.Movies.run world.concurrent, concurrent := [] }
                let updated := world.Movies.Update movie
                let world := { world with Movies := updated.m }
                match updated.err with
                | some .ErrEditConflict => app.editConflictResponse w r world
                | some err => app.serverErrorResponse w r err world
                | none =>
                    match app.writeJSON w 200 (.movie updated.movie) [] with
                    | (w, some err) => app.serverErrorResponse w r err world
                    | (w, none) => { w := w, world := world, panicked := none }

/-- The handler `deleteMovieHandler`. -/
def application.deleteMovieHandler (app : application) : Handler := fun w r world =>
  match app.readIDParam r with
  | .error _ => app.notFoundResponse w r world
  | .ok id =>
      match world.Movies.Delete id with
      | (m, some .ErrRecordNotFound) => app.notFoundResponse w r { world with Movies := m }
      | (m, some err) => app.serverErrorResponse w r err { world with Movies := m }
      | (m, none) =>
          match app.writeJSON w 200 (.message "movie successfully deleted") [] with
          | (w, some err) => app.serverErrorResponse w r err { world with Movies := m }
          | (w, none) => { w := w, world := { world with Movies := m }, panicked := none }

/-- The handler `createMovieHandler`. The body is decoded as by `readJSON`; the input
struct of this handler has plain fields, so that a field the body omits is the zero
value. The `Location` header carries the id in decimal. -/
def application.createMovieHandler (app : application) : Handler := fun w r world =>
  match app.readJSON r with
  | .error err => app.badRequestResponse w r err world
  | .ok input =>
      let movie : Movie :=
        { ID := 0, CreatedAt := 0, Title := input.Title.getD "", Year := input.Year.getD 0,
          Runtime := input.Runtime.getD 0, Genres := input.Genres, Version := 0 }
      let v := ValidateMovie world.year validator.New movie
      if !v.Valid then app.failedValidationResponse w r v.Errors world
      else
        let inserted := world.Movies.Insert movie
        let world := { world with Movies := inserted.m }
        match inserted.err with
        | some err => app.serverErrorResponse w r err world
        | none =>
            let headers := [("Location", "/v1/movies/" ++ toString inserted.movie.ID)]
            match app.writeJSON w 201 (.movie inserted.movie) headers with
            | (w, some err) => app.serverErrorResponse w r err world
            | (w, none) => { w := w, world := world, panicked := none }

/-- The handler `showMovieHandler`. -/
def application.showMovieHandler (app : application) : Handler := fun w r world =>
  match app.readIDParam r with
  | .error _ => app.notFoundResponse w r world
  | .ok id =>
      match world.Movies.Get id with
      | (m, .error .ErrRecordNotFound) =>
          app.notFoundResponse w r { world with Movies := m }
      | (m, .error err) => app.serverErrorResponse w r err { world with Movies := m }
      | (m, .ok movie) =>
          match app.writeJSON w 200 (.movie movie) [] with
          | (w, some err) => app.serverErrorResponse w r err { world with Movies := m }
          | (w, none) => { w := w, world := { world with Movies := m }, panicked := none }

/-! ## `cmd/api/healthcheck.go` -/

/-- The handler `healthcheckHandler`; `version` is the package variable of that name, set
when the binary is linked. -/
def application.healthcheckHandler (app : application) (version : String) : Handler :=
  fun w r world =>
    match app.writeJSON w 200 (.health app.config.env version) [] with
    | (w, some err) => app.serverErrorResponse w r err world
    | (w, none) => { w := w, world := world, panicked := none }

/-! ## The middleware above the rate limiter -/

/-- A handler that runs above `rateLimit` in the chain: it is run on the client map of the
rate limiter and returns the map it leaves, next to the outcome. -/
abbrev Limited := clients → ResponseWriter → Request → World → clients × Outcome

/-- The helper `methodNotAllowedResponse(w, r)`. -/
def application.methodNotAllowedResponse (_ : application) : Handler :=
  respond .methodNotAllowed

/-- The middleware `metrics`. It calls the next handler through `httpsnoop` and leaves
what that handler did as it is; the `expvar` counters that it increments are variables
of the process that no handler reads, and they are not part of the world. -/
def application.metrics (_ : application) (next : Limited) : Limited :=
  fun cs w r world => next cs w r world

/-- The loop of `enableCORS` over the trusted origins: for every trusted origin equal to
the request origin the `Access-Control-Allow-Origin` header is set, and a preflight
request is answered there with the two further headers and status 200. The result is
the response writer and whether the handler has returned. -/
def corsLoop (origin : String) (preflight : Bool) :
    List String → ResponseWriter → ResponseWriter × Bool
  | [], w => (w, false)
  | v :: rest, w =>
      if origin = v then
        let w := w.HeaderSet "Access-Control-Allow-Origin" origin
        if preflight then
          let w := w.HeaderSet "Access-Control-Allow-Methods" "OPTIONS, PUT, PATCH, DELETE"
          let w := w.HeaderSet "Access-Control-Allow-Headers" "Authorization, Content-Type"
          ({ w with written := w.written ++ [.status 200] }, true)
        else corsLoop origin preflight rest w
      else corsLoop origin preflight rest w

/-- The middleware `enableCORS`. -/
def application.enableCORS (app : application) (next : Limited) : Limited :=
  fun cs w r world =>
    let w := w.HeaderAdd "Vary" "Origin"
    let w := w.HeaderAdd "Vary" "Access-Control-Request-Method"
    let origin := r.HeaderGet "Origin"
    if origin ≠ "" ∧ app.config.cors.trustedOrigins.length ≠ 0 then
      let preflight :=
        decide (r.Method = "OPTIONS") &&
          decide (r.HeaderGet "Access-Control-Request-Method" ≠ "")
      match corsLoop origin preflight app.config.cors.trustedOrigins w with
      | (w, true) => (cs, { w := w, world := world, panicked := none })
      | (w, false) => next cs w r world
    else next cs w r world

/-- The middleware `recoverPanic`: the deferred function runs when the next handler has
returned or panicked; on a panic it sets `Connection: close` and calls
`serverErrorResponse` with the panic value as the error (`fmt.Errorf("%s", err)`). -/
def application.recoverPanic (app : application) (next : Limited) : Limited :=
  fun cs w r world =>
    let served := next cs w r world
    match served.2.panicked with
    | some err =>
        (served.1,
          app.serverErrorResponse (served.2.w.HeaderSet "Connection" "close") r (.other err)
            served.2.world)
    | none => served

/-! ## `cmd/api/routes.go` -/

/-- The authorization wrapper around the handler of a route: none, as for the user and
token endpoints, `requireActivatedUser`, or `requirePermission` with its code. -/
inductive Gate where
  | free
  | activated
  | permission (code : String)
deriving DecidableEq, Repr

/-- The wrapper that a gate stands for. -/
def Gate.wrap (app : application) : Gate → Handler → Handler
  | .free, next => next
  | .activated, next => app.requireActivatedUser next
  | .permission code, next => app.requirePermission code next

/-- A registration `router.HandlerFunc(method, pattern, handler)`, with the handler split
into its authorization wrapper and the handler inside. -/
structure Route where
  Method : String
  Pattern : String
  gate : Gate
  handler : Handler

/-- What `routes` takes from outside `src/` or from the linker: the package variable
`version`, the handlers whose collaborators are not under `src/` (`listMoviesHandler`
with its filters, the user and token handlers, `expvar.Handler()`), and the matching of a
URL path against a pattern by `httprouter`. -/
structure externals where
  version : String
  listMoviesHandler : Handler
  registerUserHandler : Handler
  activateUserHandler : Handler
  updateUserPasswordHandler : Handler
  createAuthenticationTokenHandler : Handler
  createPasswordResetTokenHandler : Handler
  createActivationTokenHandler : Handler
  expvarHandler : Handler
  pathMatches : String → String → Bool

/-- The pattern of the route is one of the `/v1/movies` endpoints: it starts with
`/v1/movies`. -/
def Route.isMovies (route : Route) : Bool :=
  "/v1/movies".data.isPrefixOf route.Pattern.data

/-- The method, the pattern and the authorization wrapper of a registration. -/
def Route.shape (route : Route) : String × String × Gate :=
  (route.Method, route.Pattern, route.gate)

/-- The registrations of `routes`, in the order of the source. -/
def application.routeTable (app : application) (ext : externals) : List Route :=
  [ { Method := "GET", Pattern := "/v1/healthcheck", gate := .activated,
      handler := app.healthcheckHandler ext.version },
    { Method := "GET", Pattern := "/v1/movies", gate := .permission "movies:read",
      handler := ext.listMoviesHandler },
    { Method := "POST", Pattern := "/v1/movies", gate := .permission "movies:write",
      handler := app.createMovieHandler },
    { Method := "GET", Pattern := "/v1/movies/:id", gate := .permission "movies:read",
      handler := app.showMovieHandler },
    { Method := "PATCH", Pattern := "/v1/movies/:id", gate := .permission "movies:write",
      handler := app.updateMovieHandler },
    { Method := "DELETE", Pattern := "/v1/movies/:id", gate := .permission "movies:write",
      handler := app.deleteMovieHandler },
    { Method := "POST", Pattern := "/v1/users", gate := .free,
      handler := ext.registerUserHandler },
    { Method := "PUT", Pattern := "/v1/users/activated", gate := .free,
      handler := ext.activateUserHandler },
    { Method := "PUT", Pattern := "/v1/users/password", gate := .free,
      handler := ext.updateUserPasswordHandler },
    { Method := "POST", Pattern := "/v1/tokens/authentication", gate := .free,
      handler := ext.createAuthenticationTokenHandler },
    { Method := "POST", Pattern := "/v1/tokens/password-reset", gate := .free,
      handler := ext.createPasswordResetTokenHandler },
    { Method := "POST", Pattern := "/v1/tokens/activation", gate := .free,
      handler := ext.createActivationTokenHandler },
    { Method := "GET", Pattern := "/v1/metrics", gate := .free,
      handler := ext.expvarHandler } ]

/-- The handler registered for a route: the handler inside its wrapper. -/
def Route.registered (app : application) (route : Route) : Handler :=
  route.gate.wrap app route.handler

/-- The `httprouter` instance built by `routes`: the request goes to the route registered
for its method whose pattern matches its path; a path that only routes of other methods
match is answered by `MethodNotAllowed`, and any other path by `NotFound`. -/
def application.router (app : application) (ext : externals) : Handler := fun w r world =>
  match (app.routeTable ext).find? fun route =>
      route.Method == r.Method && ext.pathMatches route.Pattern r.URL with
  | some route => route.registered app w r world
  | none =>
      if (app.routeTable ext).any fun route => ext.pathMatches route.Pattern r.URL then
        app.methodNotAllowedResponse w r world
      else app.notFoundResponse w r world

/-- The chain `app.metrics(app.recoverPanic(app.enableCORS(app.rateLimit(
app.authenticate(router)))))` around a router, with the clock reading `now` of the rate
limiter. -/
def application.chain (app : application) (router : Handler) (now : Int) : Limited :=
  app.metrics (app.recoverPanic (app.enableCORS fun cs =>
    app.rateLimit (app.authenticate router) cs now))

/-- The handler returned by `routes`. -/
def application.routes (app : application) (ext : externals) (now : Int) : Limited :=
  app.chain (app.router ext) now

/-- The handler that `routes` registers for `PATCH /v1/movies/:id`:
`app.requirePermission("movies:write", app.updateMovieHandler)`. -/
def application.patchMovieRoute (app : application) : Handler :=
  app.requirePermission "movies:write" app.updateMovieHandler

/-- The handler that `routes` registers for `DELETE /v1/movies/:id`:
`app.requirePermission("movies:write", app.deleteMovieHandler)`. -/
def application.deleteMovieRoute (app : application) : Handler :=
  app.requirePermission "movies:write" app.deleteMovieHandler

/-! ## Sample data -/

/-- A stored movie at version 3. -/
def sampleMovie : Movie :=
  { ID := 1, CreatedAt := 0, Title := "Casablanca", Year := 1942, Runtime := 102,
    Genres := some ["drama", "romance"], Version := 3 }

/-- A movie model whose store holds the sample movie and whose driver works. -/
def sampleModel : MovieModel :=
  { DB := { store := { movies := [sampleMovie], nextID := 2, versionDefault := 1, now := 0 },
            failure := none } }

/-- A world with the sample store, in which no other request interferes. -/
def sampleWorld : World :=
  { Movies := sampleModel, year := 2024, lookups := [], concurrent := [] }

/-- An application with the default limiter settings (2 requests per second, burst 4),
whose user 7 holds both movie permissions. The collaborators are simple stand-ins: three
remote addresses split into host and port, and the only request body that decodes is
the one that sets the runtime to 103. -/
def sampleApp : application :=
  { config := { limiter := { rps := 2, burst := 4, enabled := true } },
    GetForToken := fun _ _ => .error .ErrRecordNotFound,
    GetAllForUser := fun id =>
      if id = 7 then .ok ["movies:read", "movies:write"] else .ok [],
    ValidateTokenPlaintext := fun v token =>
      v.Check (token.length == 26) "token" "must be 26 bytes long",
    SplitHostPort := fun addr =>
      if addr = "10.0.0.1:5000" then .ok ("10.0.0.1", "5000")
      else if addr = "10.0.0.1:5001" then .ok ("10.0.0.1", "5001")
      else if addr = "10.0.0.2:5000" then .ok ("10.0.0.2", "5000")
      else .error "missing port in address",
    readIDParam := fun r =>
      if r.URL = "/v1/movies/1" then .ok 1
      else if r.URL = "/v1/movies/9" then .ok 9
      else .error "invalid id parameter",
    readJSON := fun r =>
      if r.Body = "runtime 103" then
        .ok { Title := none, Year := none, Runtime := some 103, Genres := none }
      else .error "body contains badly-formed JSON",
    marshal := fun _ => .ok "" }

/-- The sample application with the burst set to 0 (the flag `-limiter-burst=0`). -/
def sampleAppNoBurst : application :=
  { sampleApp with config := { limiter := { rps := 2, burst := 0, enabled := true } } }

/-- An empty response writer. -/
def sampleWriter : ResponseWriter := { Header := [], written := [] }

/-- A PATCH request for movie 1 by the activated user 7. -/
def samplePatch : Request :=
  { Method := "PATCH", URL := "/v1/movies/1", RemoteAddr := "10.0.0.1:5000", Header := [],
    Body := "runtime 103", user := some (.loaded { ID := 7, Activated := true }) }

/-- A token of 26 characters. -/
def sampleToken : String := "ABCDEFGHIJKLMNOPQRSTUVWXYZ"

/-- The sample application with a token store that knows the sample token, as an
authentication token of the activated user 7. -/
def sampleAppWithToken : application :=
  { sampleApp with
    GetForToken := fun scope token =>
      if scope = "authentication" ∧ token = sampleToken then
        .ok { ID := 7, Activated := true }
      else .error .ErrRecordNotFound }

/-- The sample PATCH request as it arrives: no user in its context yet, and the
Authorization header as given. -/
def sampleArrival (authorization : String) : Request :=
  { samplePatch with Header := [("Authorization", authorization)], user := none }

/-- The sample PATCH request sent by user 8, whose account is not activated and who holds
no permission. -/
def sampleInactivePatch : Request :=
  { samplePatch with user := some (.loaded { ID := 8, Activated := false }) }

/-- Stand-ins for what `routes` takes from outside: handlers that write nothing, and a
path matching that knows the literal patterns and the movies 1 and 9. -/
def sampleExternals : externals :=
  { version := "1.0.0",
    listMoviesHandler := quiet,
    registerUserHandler := quiet,
    activateUserHandler := quiet,
    updateUserPasswordHandler := quiet,
    createAuthenticationTokenHandler := quiet,
    createPasswordResetTokenHandler := quiet,
    createActivationTokenHandler := quiet,
    expvarHandler := quiet,
    pathMatches := fun pattern path =>
      pattern == path ||
        (pattern == "/v1/movies/:id" && (path == "/v1/movies/1" || path == "/v1/movies/9")) }

/-- A handler above the rate limiter that panics with the value `boom` after writing
nothing. -/
def samplePanic : Limited := fun cs w _ world =>
  (cs, { w := w, world := world, panicked := some "boom" })

/-- A DELETE request for movie 9, which the sample store does not hold. -/
def sampleDelete : Request :=
  { samplePatch with Method := "DELETE", URL := "/v1/movies/9", Body := "" }

end api

/-! # Properties -/

namespace data

/-! ## The conditional update -/

theorem updateHits_iff (id version : Int) (row : Movie) :
    Stmt.updateHits id version row = true ↔ row.ID = id ∧ row.Version = version := by
  simp [Stmt.updateHits]

theorem filter_updateHits_eq_nil (rows : List Movie) (id version : Int) :
    rows.filter (Stmt.updateHits id version) = [] ↔
      ¬ ∃ row ∈ rows, row.ID = id ∧ row.Version = version := by
  simp [List.filter_eq_nil_iff, updateHits_iff]

theorem map_update_of_no_hit (rows : List Movie) (id version : Int) (f : Movie → Movie)
    (h : rows.filter (Stmt.updateHits id version) = []) :
    rows.map (fun row => if Stmt.updateHits id version row then f row else row) = rows := by
  induction rows with
  | nil => rfl
  | cons row rest ih =>
    by_cases hr : Stmt.updateHits id version row = true
    · simp [List.filter_cons, hr] at h
    · simp only [List.filter_cons, hr] at h
      simp [hr, ih h]

/-- With a driver failure pending, `Update` returns that failure and touches nothing. -/
theorem update_of_failure (m : MovieModel) (movie : Movie) (msg : String)
    (h : m.DB.failure = some msg) :
    m.Update movie = { m := m, movie := movie, err := some (.other msg) } := by
  simp [MovieModel.Update, DB.QueryRowContext, h]

/-- When no row matches id and version, `Update` reports the edit conflict and touches
nothing. -/
theorem update_of_miss (m : MovieModel) (movie : Movie) (h : m.DB.failure = none)
    (hmiss : m.DB.store.movies.filter (Stmt.updateHits movie.ID movie.Version) = []) :
    m.Update movie = { m := m, movie := movie, err := some .ErrEditConflict } := by
  obtain ⟨⟨store, failure⟩⟩ := m
  simp only at h hmiss
  subst h
  simp [MovieModel.Update, DB.QueryRowContext, Store.run, hmiss,
    map_update_of_no_hit _ _ _ _ hmiss]

/-- When a row matches id and version, `Update` succeeds: every matching row is rewritten
with its version incremented, and the incremented version is stored in the movie. -/
theorem update_of_hit (m : MovieModel) (movie : Movie) (row : Movie) (rest : List Movie)
    (h : m.DB.failure = none)
    (hhit : m.DB.store.movies.filter (Stmt.updateHits movie.ID movie.Version)
      = row :: rest) :
    m.Update movie =
      { m := { DB := { m.DB with store := { m.DB.store with
                movies := m.DB.store.movies.map fun r =>
                  if Stmt.updateHits movie.ID movie.Version r then
                    Stmt.updateSet movie.Title movie.Year movie.Runtime movie.Genres r
                  else r } } },
        movie := { movie with Version := movie.Version + 1 },
        err := none } := by
  have hrow : row.Version = movie.Version := by
    have : row ∈ m.DB.store.movies.filter (Stmt.updateHits movie.ID movie.Version) := by
      rw [hhit]; exact List.mem_cons_self _ _
    exact ((updateHits_iff _ _ _).1 (List.mem_filter.1 this).2).2
  obtain ⟨⟨store, failure⟩⟩ := m
  simp only at h hhit
  subst h
  simp [MovieModel.Update, DB.QueryRowContext, Store.run, hhit, Stmt.updateSet, hrow]

/-! ## Stored versions along the lifecycle -/

theorem update_store (m : MovieModel) (movie : Movie) :
    (m.Update movie).m.DB.store =
      match m.DB.failure with
      | none => (m.DB.store.run (.updateMovie movie.Title movie.Year movie.Runtime
          movie.Genres movie.ID movie.Version)).1
      | some _ => m.DB.store := by
  obtain ⟨⟨store, failure⟩⟩ := m
  cases failure with
  | some msg => simp [MovieModel.Update, DB.QueryRowContext]
  | none =>
    simp only [MovieModel.Update, DB.QueryRowContext]
    rcases store.run (.updateMovie movie.Title movie.Year movie.Runtime movie.Genres
      movie.ID movie.Version) with ⟨s, _ | ⟨row, rest⟩⟩ <;> rfl

theorem insert_store (m : MovieModel) (movie : Movie) :
    (m.Insert movie).m.DB.store =
      match m.DB.failure with
      | none => (m.DB.store.run (.insertMovie movie.Title movie.Year movie.Runtime
          movie.Genres)).1
      | some _ => m.DB.store := by
  obtain ⟨⟨store, failure⟩⟩ := m
  cases failure with
  | some msg => simp [MovieModel.Insert, DB.QueryRowContext]
  | none => simp [MovieModel.Insert, DB.QueryRowContext, Store.run]

theorem get_model (m : MovieModel) (id : Int) : (m.Get id).1 = m := by
  obtain ⟨⟨store, failure⟩⟩ := m
  unfold MovieModel.Get
  split
  · rfl
  · cases failure with
    | some msg => simp [DB.QueryRowContext]
    | none =>
      simp only [DB.QueryRowContext, Store.run]
      generalize List.filter (fun row => decide (row.ID = id)) store.movies = hits
      cases hits <;> rfl

theorem delete_store (m : MovieModel) (id : Int) :
    (m.Delete id).1.DB.store =
      if id < 1 then m.DB.store
      else match m.DB.failure with
        | none => (m.DB.store.run (.deleteMovie id)).1
        | some _ => m.DB.store := by
  obtain ⟨⟨store, failure⟩⟩ := m
  unfold MovieModel.Delete
  split
  · rfl
  · cases failure with
    | some msg => simp [DB.ExecContext]
    | none =>
      simp only [DB.ExecContext]
      split <;> rfl

theorem version_run_update (s : Store) (t : String) (y r : Int) (g : Option (List String))
    (id' ver id : Int) :
    (s.run (.updateMovie t y r g id' ver)).1.version id =
      (s.version id).map fun v => if id = id' ∧ v = ver then v + 1 else v := by
  obtain ⟨rows, n, d, now⟩ := s
  simp only [Store.run, Store.version]
  induction rows with
  | nil => rfl
  | cons row rest ih =>
    simp only [List.map_cons, List.find?_cons]
    by_cases hid : row.ID = id
    · by_cases hh : Stmt.updateHits id' ver row = true
      · obtain ⟨h2a, h2b⟩ := (updateHits_iff _ _ _).1 hh
        subst hid
        subst h2a
        subst h2b
        simp [hh, Stmt.updateSet]
      · have h2 : ¬ (id = id' ∧ row.Version = ver) := fun hc =>
          hh ((updateHits_iff _ _ _).2 ⟨hid.trans hc.1, hc.2⟩)
        simp [hh, hid, h2]
    · by_cases hh : Stmt.updateHits id' ver row = true
      · simpa [hh, Stmt.updateSet, hid] using ih
      · simpa [hh, hid] using ih

theorem version_run_delete (s : Store) (id' id : Int) :
    (s.run (.deleteMovie id')).1.version id = if id = id' then none else s.version id := by
  obtain ⟨rows, n, d, now⟩ := s
  simp only [Store.run, Store.version]
  induction rows with
  | nil => simp
  | cons row rest ih =>
    by_cases hdel : row.ID = id'
    · subst hdel
      by_cases hid : id = row.ID
      · simp [List.filter_cons, hid]
      · have : ¬ row.ID = id := fun hc => hid hc.symm
        simpa [List.filter_cons, hid, List.find?_cons, this] using ih
    · by_cases hrow : row.ID = id
      · have : ¬ id = id' := fun hc => hdel (hrow.trans hc)
        simp [List.filter_cons, hdel, List.find?_cons, hrow, this]
      · simpa [List.filter_cons, hdel, List.find?_cons, hrow] using ih

theorem version_run_insert (s : Store) (t : String) (y r : Int) (g : Option (List String))
    (id : Int) :
    (s.run (.insertMovie t y r g)).1.version id =
      match s.version id with
      | some v => some v
      | none => if s.nextID = id then some s.versionDefault else none := by
  obtain ⟨rows, n, d, now⟩ := s
  simp only [Store.run, Store.version]
  induction rows with
  | nil => by_cases h : n = id <;> simp [h]
  | cons row rest ih =>
    by_cases hrow : row.ID = id
    · simp [List.find?_cons, hrow]
    · simpa [List.find?_cons, hrow] using ih

theorem version_eq_none_of_fresh (s : Store) (id : Int)
    (h : ∀ row ∈ s.movies, row.ID < id) : s.version id = none := by
  simp only [Store.version, Option.map_eq_none', List.find?_eq_none]
  intro row hrow
  have := h row hrow
  simp only [decide_eq_true_eq]
  omega

theorem version_of_mem (s : Store) (row : Movie) (hk : s.Keyed) (hrow : row ∈ s.movies) :
    s.version row.ID = some row.Version := by
  obtain ⟨rows, n, d, now⟩ := s
  obtain ⟨hnd, -⟩ := hk
  simp only [Store.version] at *
  induction rows with
  | nil => cases hrow
  | cons r rest ih =>
    simp only [List.map_cons, List.nodup_cons] at hnd
    rcases List.mem_cons.1 hrow with rfl | hin
    · simp [List.find?_cons]
    · have hne : ¬ r.ID = row.ID := fun hc =>
        hnd.1 (hc ▸ List.mem_map_of_mem (fun x : Movie => x.ID) hin)
      simpa [List.find?_cons, hne] using ih hin hnd.2

theorem keyed_run (s : Store) (q : Stmt) (hk : s.Keyed) : (s.run q).1.Keyed := by
  obtain ⟨rows, n, d, now⟩ := s
  obtain ⟨hnd, hlt⟩ := hk
  simp only at hnd hlt
  cases q with
  | insertMovie t y r g =>
    refine ⟨?_, ?_⟩
    · simp only [Store.run, List.map_append, List.map_cons, List.map_nil]
      refine List.Nodup.append hnd (List.nodup_singleton _) ?_
      simp only [List.disjoint_singleton, List.mem_map, not_exists, not_and]
      intro row hrow hc
      have := hlt row hrow
      omega
    · intro row hrow
      simp only [Store.run, List.mem_append, List.mem_singleton] at hrow ⊢
      rcases hrow with hrow | rfl
      · have := hlt row hrow
        omega
      · simp
  | selectMovie id => exact ⟨hnd, hlt⟩
  | updateMovie t y r g id ver =>
    have hmap : (rows.map fun row => if Stmt.updateHits id ver row then
        Stmt.updateSet t y r g row else row).map (fun row => row.ID)
        = rows.map fun row => row.ID := by
      rw [List.map_map]
      apply List.map_congr_left
      intro row _
      by_cases hh : Stmt.updateHits id ver row = true <;> simp [hh, Stmt.updateSet]
    refine ⟨?_, ?_⟩
    · simp only [Store.run]
      rw [hmap]; exact hnd
    · intro row hrow
      simp only [Store.run, List.mem_map] at hrow ⊢
      obtain ⟨old, hold, rfl⟩ := hrow
      have := hlt old hold
      by_cases hh : Stmt.updateHits id ver old = true <;> simpa [hh, Stmt.updateSet] using this
  | deleteMovie id =>
    refine ⟨?_, ?_⟩
    · simp only [Store.run]
      exact (List.Nodup.sublist (List.Sublist.map _ (List.filter_sublist _)) hnd)
    · intro row hrow
      simp only [Store.run, List.mem_filter] at hrow
      exact hlt row hrow.1

theorem run_nextID_le (s : Store) (q : Stmt) : s.nextID ≤ (s.run q).1.nextID := by
  cases q <;> simp [Store.run]

/-- The store after a call is the store before it, or the result of one statement. -/
theorem apply_store (m : MovieModel) (op : Op) :
    (m.apply op).DB.store = m.DB.store ∨
      ∃ q, (m.apply op).DB.store = (m.DB.store.run q).1 ∧
        (q = match op with
          | .Insert movie => .insertMovie movie.Title movie.Year movie.Runtime movie.Genres
          | .Get id => .selectMovie id
          | .Update movie => .updateMovie movie.Title movie.Year movie.Runtime movie.Genres
              movie.ID movie.Version
          | .Delete id => .deleteMovie id) := by
  cases op with
  | Insert movie =>
    simp only [MovieModel.apply, insert_store]
    cases m.DB.failure <;> simp
  | Get id => left; simp [MovieModel.apply, get_model]
  | Update movie =>
    simp only [MovieModel.apply, update_store]
    cases m.DB.failure <;> simp
  | Delete id =>
    simp only [MovieModel.apply, delete_store]
    split
    · left; rfl
    · cases m.DB.failure <;> simp

theorem version_some_mem (s : Store) (id v : Int) (h : s.version id = some v) :
    ∃ row ∈ s.movies, row.ID = id ∧ row.Version = v := by
  simp only [Store.version, Option.map_eq_some'] at h
  obtain ⟨row, hfind, hv⟩ := h
  refine ⟨row, List.mem_of_find?_eq_some hfind, ?_, hv⟩
  simpa using List.find?_some hfind

theorem update_err_eq_none_iff (m : MovieModel) (movie : Movie) :
    (m.Update movie).err = none ↔
      m.DB.failure = none ∧
        ∃ row ∈ m.DB.store.movies, row.ID = movie.ID ∧ row.Version = movie.Version := by
  cases hfail : m.DB.failure with
  | some msg => simp [update_of_failure m movie msg hfail]
  | none =>
    rcases hf : m.DB.store.movies.filter (Stmt.updateHits movie.ID movie.Version) with
      _ | ⟨row, rest⟩
    · have hno := (filter_updateHits_eq_nil _ _ _).1 hf
      rw [update_of_miss m movie hfail hf]
      simpa using hno
    · have hyes : ∃ row ∈ m.DB.store.movies,
          row.ID = movie.ID ∧ row.Version = movie.Version := by
        by_contra hcon
        rw [(filter_updateHits_eq_nil _ _ _).2 hcon] at hf
        exact List.noConfusion hf
      rw [update_of_hit m movie row rest hfail hf]
      simpa using hyes

theorem update_movie_version (m : MovieModel) (movie : Movie)
    (h : (m.Update movie).err = none) :
    (m.Update movie).movie.Version = movie.Version + 1 := by
  have hfail := ((update_err_eq_none_iff m movie).1 h).1
  rcases hf : m.DB.store.movies.filter (Stmt.updateHits movie.ID movie.Version) with
    _ | ⟨row, rest⟩
  · rw [update_of_miss m movie hfail hf] at h
    simp at h
  · rw [update_of_hit m movie row rest hfail hf]

/-- One call changes the stored version of a record in one of three ways: not at all, by
exactly one (a successful `Update` of that record carrying that version), or by removing
the record (a `Delete` of that id). -/
theorem apply_version_step (m : MovieModel) (op : Op) (id v : Int)
    (hv : m.DB.store.version id = some v) :
    (m.apply op).DB.store.version id = some v ∨
    ((m.apply op).DB.store.version id = some (v + 1) ∧
      ∃ movie, op = .Update movie ∧ movie.ID = id ∧ movie.Version = v ∧
        (m.Update movie).err = none) ∨
    ((m.apply op).DB.store.version id = none ∧ op = .Delete id) := by
  cases op with
  | Insert movie =>
    left
    simp only [MovieModel.apply, insert_store]
    cases m.DB.failure with
    | some msg => exact hv
    | none => simp [version_run_insert, hv]
  | Get id' => left; simpa [MovieModel.apply, get_model] using hv
  | Update movie =>
    simp only [MovieModel.apply, update_store]
    cases hfail : m.DB.failure with
    | some msg => left; exact hv
    | none =>
      simp only [version_run_update, hv, Option.map_some']
      by_cases hc : id = movie.ID ∧ v = movie.Version
      · right; left
        refine ⟨by simp [hc], movie, rfl, hc.1.symm, hc.2.symm, ?_⟩
        obtain ⟨row, hrow, h1, h2⟩ := version_some_mem _ _ _ hv
        exact (update_err_eq_none_iff m movie).2
          ⟨hfail, row, hrow, h1.trans hc.1, h2.trans hc.2⟩
      · left; simp [hc]
  | Delete id' =>
    simp only [MovieModel.apply, delete_store]
    split
    · left; exact hv
    · cases m.DB.failure with
      | some msg => left; exact hv
      | none =>
        simp only [version_run_delete]
        by_cases hc : id = id'
        · right; right; simp [hc]
        · left; simp [hc, hv]

/-- An id that the sequence has handed out and that has no record stays without one. -/
theorem apply_version_none (m : MovieModel) (op : Op) (id : Int)
    (hlt : id < m.DB.store.nextID)
    (hnone : m.DB.store.version id = none) :
    (m.apply op).DB.store.version id = none := by
  have hne : ¬ m.DB.store.nextID = id := by omega
  cases op with
  | Insert movie =>
    simp only [MovieModel.apply, insert_store]
    cases m.DB.failure with
    | some msg => exact hnone
    | none => simp [version_run_insert, hnone, hne]
  | Get id' => simpa [MovieModel.apply, get_model] using hnone
  | Update movie =>
    simp only [MovieModel.apply, update_store]
    cases m.DB.failure with
    | some msg => exact hnone
    | none => simp [version_run_update, hnone]
  | Delete id' =>
    simp only [MovieModel.apply, delete_store]
    split
    · exact hnone
    · cases m.DB.failure with
      | some msg => exact hnone
      | none => simp [version_run_delete, hnone]

theorem apply_keyed (m : MovieModel) (op : Op) (hk : m.DB.store.Keyed) :
    (m.apply op).DB.store.Keyed := by
  rcases apply_store m op with h | ⟨q, h, -⟩
  · rw [h]; exact hk
  · rw [h]; exact keyed_run _ _ hk

theorem apply_nextID_le (m : MovieModel) (op : Op) :
    m.DB.store.nextID ≤ (m.apply op).DB.store.nextID := by
  rcases apply_store m op with h | ⟨q, h, -⟩
  · rw [h]
  · rw [h]; exact run_nextID_le _ _

theorem run_keyed (m : MovieModel) (ops : List Op) (hk : m.DB.store.Keyed) :
    (m.run ops).DB.store.Keyed := by
  induction ops generalizing m with
  | nil => exact hk
  | cons op rest ih => exact ih (m.apply op) (apply_keyed m op hk)

/-- Along any sequence of calls the stored version of a record never falls below a bound
it has reached. -/
theorem run_version_ge (m : MovieModel) (ops : List Op) (id v : Int)
    (hk : m.DB.store.Keyed) (hlt : id < m.DB.store.nextID)
    (hv : ∀ w, m.DB.store.version id = some w → v ≤ w) :
    ∀ w, (m.run ops).DB.store.version id = some w → v ≤ w := by
  induction ops generalizing m with
  | nil => exact hv
  | cons op rest ih =>
    refine ih (m.apply op) (apply_keyed m op hk) ?_ ?_
    · have := apply_nextID_le m op
      omega
    · intro w hw
      cases hcur : m.DB.store.version id with
      | none =>
        rw [apply_version_none m op id hlt hcur] at hw
        cases hw
      | some u =>
        have hu := hv u hcur
        rcases apply_version_step m op id u hcur with h | ⟨h, -⟩ | ⟨h, -⟩
        · rw [h] at hw; cases hw; exact hu
        · rw [h] at hw; cases hw; omega
        · rw [h] at hw; cases hw

/-- C2. Along the lifecycle of the records of a keyed store driven by `Insert`, `Get`,
`Update` and `Delete` (any history of calls, then one more call): the key invariant is
kept; a successful `Update` finds the stored version equal to `movie.Version`, leaves the
stored version exactly one greater and writes that value into `movie.Version`; a call
leaves the stored version of any record unchanged, or one greater (only a successful
`Update` of that record), or removes the record (only a `Delete` of its id), so that it
never lowers a version or skips a number; and over the whole history the version of a
record has not gone down. -/
theorem update_increments_version_by_exactly_one (start : MovieModel) (history : List Op)
    (op : Op) (hk : start.DB.store.Keyed) :
    (start.run (history ++ [op])).DB.store.Keyed ∧
    (∀ movie, op = .Update movie → ((start.run history).Update movie).err = none →
        (start.run history).DB.store.version movie.ID = some movie.Version ∧
        (start.run (history ++ [op])).DB.store.version movie.ID
          = some (movie.Version + 1) ∧
        ((start.run history).Update movie).movie.Version = movie.Version + 1) ∧
    (∀ id v, (start.run history).DB.store.version id = some v →
        (start.run (history ++ [op])).DB.store.version id = some v ∨
        ((start.run (history ++ [op])).DB.store.version id = some (v + 1) ∧
          ∃ movie, op = .Update movie ∧ movie.ID = id ∧ movie.Version = v ∧
            ((start.run history).Update movie).err = none) ∨
        ((start.run (history ++ [op])).DB.store.version id = none ∧ op = .Delete id)) ∧
    (∀ id v w, start.DB.store.version id = some v →
        (start.run history).DB.store.version id = some w → v ≤ w) := by
  have hrun : start.run (history ++ [op]) = (start.run history).apply op := by
    simp [MovieModel.run, List.foldl_append]
  have hkm := run_keyed start history hk
  rw [hrun]
  refine ⟨apply_keyed _ _ hkm, ?_, ?_, ?_⟩
  · rintro movie rfl herr
    obtain ⟨hfail, row, hrow, hid, hver⟩ := (update_err_eq_none_iff _ movie).1 herr
    have hstored : (start.run history).DB.store.version movie.ID = some movie.Version := by
      rw [← hid, ← hver]; exact version_of_mem _ row hkm hrow
    refine ⟨hstored, ?_, update_movie_version _ movie herr⟩
    simp [MovieModel.apply, update_store, hfail, version_run_update, hstored]
  · intro id v hv
    exact apply_version_step _ op id v hv
  · intro id v w hv hw
    obtain ⟨row, hrow, hid, -⟩ := version_some_mem _ _ _ hv
    refine run_version_ge start history id v hk ?_ ?_ w hw
    · rw [← hid]; exact hk.2 row hrow
    · intro u hu
      rw [hv] at hu
      cases hu
      exact le_refl _

/-- C1. Provided the connection pool reports no driver failure (the statement reaches the
store), `MovieModel.Update` succeeds if and only if the store holds a record whose id is
`movie.ID` and whose version is `movie.Version`; when there is no such record it returns
`ErrEditConflict`, leaves the store (every stored record) as it was and does not touch
the movie. -/
theorem update_succeeds_iff_id_and_version_match (m : MovieModel) (movie : Movie)
    (h : m.DB.failure = none) :
    ((m.Update movie).err = none ↔
        ∃ row ∈ m.DB.store.movies, row.ID = movie.ID ∧ row.Version = movie.Version) ∧
    ((¬ ∃ row ∈ m.DB.store.movies, row.ID = movie.ID ∧ row.Version = movie.Version) →
        (m.Update movie).err = some .ErrEditConflict ∧
        (m.Update movie).m = m ∧
        (m.Update movie).m.DB.store.movies = m.DB.store.movies ∧
        (m.Update movie).movie = movie) := by
  rcases hf : m.DB.store.movies.filter (Stmt.updateHits movie.ID movie.Version) with
    _ | ⟨row, rest⟩
  · have hno := (filter_updateHits_eq_nil _ _ _).1 hf
    rw [update_of_miss m movie h hf]
    exact ⟨⟨fun he => by simp at he, fun hex => absurd hex hno⟩,
      fun _ => ⟨rfl, rfl, rfl, rfl⟩⟩
  · have hyes : ∃ row ∈ m.DB.store.movies,
        row.ID = movie.ID ∧ row.Version = movie.Version := by
      by_contra hcon
      rw [(filter_updateHits_eq_nil _ _ _).2 hcon] at hf
      exact List.noConfusion hf
    rw [update_of_hit m movie row rest h hf]
    exact ⟨⟨fun _ => hyes, fun _ => rfl⟩, fun hno => absurd hyes hno⟩

/-! ## Two writers, and deletion of a missing record -/

theorem update_second_misses (m : MovieModel) (a b : Movie) (hfail : m.DB.failure = none)
    (hid : a.ID = b.ID) (hver : a.Version = b.Version) :
    ((m.Update a).m.Update b).err ≠ none ∨ (m.Update a).err ≠ none := by
  by_cases h1 : (m.Update a).err = none
  · left
    intro h2
    obtain ⟨-, row, hrow, hrid, hrver⟩ := (update_err_eq_none_iff _ b).1 h2
    rw [update_store, hfail] at hrow
    simp only [Store.run, List.mem_map] at hrow
    obtain ⟨old, -, rfl⟩ := hrow
    by_cases hh : Stmt.updateHits a.ID a.Version old = true
    · have := ((updateHits_iff _ _ _).1 hh).2
      simp only [hh, if_true, Stmt.updateSet] at hrver
      omega
    · simp only [hh] at hrid hrver
      exact hh ((updateHits_iff _ _ _).2 ⟨hrid.trans hid.symm, hrver.trans hver.symm⟩)
  · right; exact h1

theorem update_failure_kept (m : MovieModel) (movie : Movie) :
    (m.Update movie).m.DB.failure = m.DB.failure := by
  obtain ⟨⟨store, failure⟩⟩ := m
  cases failure with
  | some msg => simp [MovieModel.Update, DB.QueryRowContext]
  | none =>
    simp only [MovieModel.Update, DB.QueryRowContext]
    rcases store.run (.updateMovie movie.Title movie.Year movie.Runtime movie.Genres
      movie.ID movie.Version) with ⟨s, _ | ⟨row, rest⟩⟩ <;> rfl

theorem update_err_of_miss (m : MovieModel) (movie : Movie) (hfail : m.DB.failure = none)
    (h : (m.Update movie).err ≠ none) :
    (m.Update movie).err = some .ErrEditConflict ∧ (m.Update movie).m = m := by
  rcases hf : m.DB.store.movies.filter (Stmt.updateHits movie.ID movie.Version) with
    _ | ⟨row, rest⟩
  · rw [update_of_miss m movie hfail hf]
    exact ⟨rfl, rfl⟩
  · rw [update_of_hit m movie row rest hfail hf] at h
    exact absurd rfl h

theorem updateTwice_one_winner (m : MovieModel) (a b : Movie) (v : Int)
    (hfail : m.DB.failure = none) (hid : a.ID = b.ID) (ha : a.Version = v)
    (hb : b.Version = v) (hstored : m.DB.store.version a.ID = some v) :
    m.updateTwice a b = (none, some .ErrEditConflict, (m.Update a).m) ∧
    (m.Update a).m.DB.store.version a.ID = some (v + 1) := by
  obtain ⟨row, hrow, h1, h2⟩ := version_some_mem _ _ _ hstored
  have hfirst : (m.Update a).err = none :=
    (update_err_eq_none_iff m a).2 ⟨hfail, row, hrow, h1, h2.trans ha.symm⟩
  have hsecond : ((m.Update a).m.Update b).err ≠ none := by
    rcases update_second_misses m a b hfail hid (ha.trans hb.symm) with h | h
    · exact h
    · exact absurd hfirst h
  have hfail' : (m.Update a).m.DB.failure = none := by
    rw [update_failure_kept, hfail]
  obtain ⟨he, hm⟩ := update_err_of_miss _ b hfail' hsecond
  refine ⟨?_, ?_⟩
  · simp only [MovieModel.updateTwice, hfirst, he, hm]
  · simp [update_store, hfail, version_run_update, hstored, ha]

/-- C4. Two `Update` calls on the same movie id that carry the same observed version `v`,
the stored version, are executed by the store one after the other, in either order (each
call is one statement, and the store executes a statement atomically). Whichever call
comes first succeeds, the other one returns `ErrEditConflict`, and the stored version
ends at `v + 1`. -/
theorem concurrent_updates_exactly_one_succeeds (m : MovieModel) (a b : Movie) (v : Int)
    (hfail : m.DB.failure = none) (hid : a.ID = b.ID) (ha : a.Version = v)
    (hb : b.Version = v) (hstored : m.DB.store.version a.ID = some v) :
    ((m.updateTwice a b).1 = none ∧
      (m.updateTwice a b).2.1 = some .ErrEditConflict ∧
      (m.updateTwice a b).2.2.DB.store.version a.ID = some (v + 1)) ∧
    ((m.updateTwice b a).1 = none ∧
      (m.updateTwice b a).2.1 = some .ErrEditConflict ∧
      (m.updateTwice b a).2.2.DB.store.version a.ID = some (v + 1)) := by
  obtain ⟨h1, h2⟩ := updateTwice_one_winner m a b v hfail hid ha hb hstored
  obtain ⟨h3, h4⟩ := updateTwice_one_winner m b a v hfail hid.symm hb ha (hid ▸ hstored)
  rw [h1, h3]
  exact ⟨⟨rfl, rfl, h2⟩, ⟨rfl, rfl, hid ▸ h4⟩⟩

theorem delete_below_one (m : MovieModel) (id : Int) (h : id < 1) :
    m.Delete id = (m, some .ErrRecordNotFound) := by
  simp [MovieModel.Delete, h]

theorem delete_of_absent (m : MovieModel) (id : Int) (hfail : m.DB.failure = none)
    (hno : ∀ row ∈ m.DB.store.movies, row.ID ≠ id) :
    m.Delete id = (m, some .ErrRecordNotFound) := by
  obtain ⟨⟨store, failure⟩⟩ := m
  simp only at hfail hno
  subst hfail
  have h1 : store.movies.filter (fun row => decide (row.ID = id)) = [] := by
    simp only [List.filter_eq_nil_iff, decide_eq_true_eq]
    exact hno
  have h2 : store.movies.filter (fun row => !decide (row.ID = id)) = store.movies := by
    simp only [List.filter_eq_self, Bool.not_eq_true', decide_eq_false_iff_not]
    exact hno
  unfold MovieModel.Delete
  split
  · rfl
  · simp [DB.ExecContext, Store.run, h1, h2]

theorem delete_ne_editConflict (m : MovieModel) (id : Int) :
    (m.Delete id).2 ≠ some .ErrEditConflict := by
  unfold MovieModel.Delete
  split
  · simp
  · split
    · simp
    · simp
    · split
      · simp
      · split <;> simp

theorem delete_missing (m : MovieModel) (id : Int)
    (hno : ∀ row ∈ m.DB.store.movies, row.ID ≠ id)
    (hreach : m.DB.failure = none ∨ id < 1) :
    m.Delete id = (m, some .ErrRecordNotFound) := by
  rcases hreach with h | h
  · exact delete_of_absent m id h hno
  · exact delete_below_one m id h

theorem delete_missing_iterate (m : MovieModel) (id : Int) (n : Nat)
    (hno : ∀ row ∈ m.DB.store.movies, row.ID ≠ id)
    (hreach : m.DB.failure = none ∨ id < 1) :
    (fun m' : MovieModel => (m'.Delete id).1)^[n] m = m := by
  induction n with
  | zero => rfl
  | succ k ih =>
    rw [Function.iterate_succ_apply', ih, delete_missing m id hno hreach]

/-- C5. For every id that has no record in the store, `MovieModel.Delete` returns
`ErrRecordNotFound` and leaves the model, store included, as it was, so that any number
of repeated calls return `ErrRecordNotFound` again; for an id below 1 this holds for
every model, whatever its store and its driver (the store is not consulted), and
otherwise it holds when the driver executes the statement; `Delete` never returns
`ErrEditConflict`; and `deleteMovieHandler` answers such a request with the not-found
response, leaving the world as it was. -/
theorem delete_of_missing_id_is_not_found (app : api.application) (w : api.ResponseWriter)
    (r : api.Request) (world : api.World) (id : Int)
    (hno : ∀ row ∈ world.Movies.DB.store.movies, row.ID ≠ id)
    (hreach : world.Movies.DB.failure = none ∨ id < 1)
    (hid : app.readIDParam r = .ok id) :
    world.Movies.Delete id = (world.Movies, some .ErrRecordNotFound) ∧
    (∀ n : Nat,
      ((fun m : MovieModel => (m.Delete id).1)^[n] world.Movies).Delete id
        = (world.Movies, some .ErrRecordNotFound)) ∧
    (id < 1 → ∀ m : MovieModel, m.Delete id = (m, some .ErrRecordNotFound)) ∧
    (∀ (m : MovieModel) (i : Int), (m.Delete i).2 ≠ some .ErrEditConflict) ∧
    app.deleteMovieHandler w r world = app.notFoundResponse w r world := by
  have hdel := delete_missing world.Movies id hno hreach
  refine ⟨hdel, ?_, ?_, delete_ne_editConflict, ?_⟩
  · intro n
    rw [delete_missing_iterate world.Movies id n hno hreach, hdel]
  · intro hlt m
    exact delete_below_one m id hlt
  · simp [api.application.deleteMovieHandler, hid, hdel]

/-- C5, at an instance: deleting id 9 from the sample store, which holds only movie 1. -/
theorem delete_of_missing_id_is_not_found_witness :
    api.sampleApp.deleteMovieHandler api.sampleWriter api.sampleDelete api.sampleWorld
      = api.sampleApp.notFoundResponse api.sampleWriter api.sampleDelete api.sampleWorld :=
  (delete_of_missing_id_is_not_found api.sampleApp api.sampleWriter
    api.sampleDelete api.sampleWorld 9 (by decide) (Or.inl rfl) rfl).2.2.2.2

/-- C1, at an instance: the sample movie at version 3 against the sample store, and the
same movie carrying version 2. -/
theorem update_succeeds_iff_id_and_version_match_witness :
    ((api.sampleModel.Update api.sampleMovie).err = none ↔
      ∃ row ∈ api.sampleModel.DB.store.movies,
        row.ID = api.sampleMovie.ID ∧ row.Version = api.sampleMovie.Version) ∧
    (api.sampleModel.Update { api.sampleMovie with Version := 2 }).err
      = some .ErrEditConflict :=
  ⟨(update_succeeds_iff_id_and_version_match api.sampleModel api.sampleMovie rfl).1,
   ((update_succeeds_iff_id_and_version_match api.sampleModel
      { api.sampleMovie with Version := 2 } rfl).2 (by decide)).1⟩

/-- C2, at an instance: the sample store after one update, then a second update that
carries version 4. -/
theorem update_increments_version_by_exactly_one_witness :
    api.sampleModel.DB.store.Keyed ∧
    (api.sampleModel.run ([.Update api.sampleMovie] ++
      [.Update { api.sampleMovie with Version := 4 }])).DB.store.Keyed :=
  ⟨by decide,
   (update_increments_version_by_exactly_one api.sampleModel [.Update api.sampleMovie]
      (.Update { api.sampleMovie with Version := 4 }) (by decide)).1⟩

/-- C4, at an instance: two writers that both read the sample movie at version 3. -/
theorem concurrent_updates_exactly_one_succeeds_witness :
    (api.sampleModel.updateTwice api.sampleMovie
        { api.sampleMovie with Title := "Casablanca (1942)" }).1 = none ∧
    (api.sampleModel.updateTwice api.sampleMovie
        { api.sampleMovie with Title := "Casablanca (1942)" }).2.1
      = some .ErrEditConflict :=
  have h := (concurrent_updates_exactly_one_succeeds api.sampleModel api.sampleMovie
    { api.sampleMovie with Title := "Casablanca (1942)" } 3 rfl rfl rfl rfl
    (by decide)).1
  ⟨h.1, h.2.1⟩

end data

namespace api

open data validator

/-! ## The update handler behind its permission gate -/

/-- An activated, loaded user who holds the permission passes `requirePermission`. -/
theorem requirePermission_pass (app : application) (code : String) (next : Handler)
    (w : ResponseWriter) (r : Request) (world : World) (u : UserRecord)
    (perms : List String) (huser : r.user = some (.loaded u)) (hact : u.Activated = true)
    (hperms : app.GetAllForUser u.ID = .ok perms)
    (hcode : Permissions.Include perms code = true) :
    app.requirePermission code next w r world = next w r world := by
  simp [application.requirePermission, application.requireActivatedUser,
    application.requireAuthenticatedUser, application.contextGetUser, huser,
    User.IsAnonymous, User.Activated, User.ID, hact, hperms, hcode]

theorem filter_head_of_keyed (s : Store) (row : Movie) (hk : s.Keyed)
    (hrow : row ∈ s.movies) :
    ∃ rest, s.movies.filter (fun x => decide (x.ID = row.ID)) = row :: rest := by
  obtain ⟨rows, n, d, now⟩ := s
  obtain ⟨hnd, -⟩ := hk
  simp only at hnd hrow ⊢
  induction rows with
  | nil => cases hrow
  | cons x rest ih =>
    simp only [List.map_cons, List.nodup_cons] at hnd
    rcases List.mem_cons.1 hrow with rfl | hin
    · exact ⟨rest.filter (fun y => decide (y.ID = row.ID)), by simp [List.filter_cons]⟩
    · have hne : ¬ x.ID = row.ID := fun hc =>
        hnd.1 (hc ▸ List.mem_map_of_mem (fun y : Movie => y.ID) hin)
      obtain ⟨tail, ht⟩ := ih hin hnd.2
      exact ⟨tail, by simp [List.filter_cons, hne, ht]⟩

/-- In a keyed store whose driver works, `Get` returns the record stored under an id of
at least 1. -/
theorem get_of_mem (m : MovieModel) (row : Movie) (hfail : m.DB.failure = none)
    (hk : m.DB.store.Keyed) (hrow : row ∈ m.DB.store.movies) (hpos : 1 ≤ row.ID) :
    m.Get row.ID = (m, .ok row) := by
  obtain ⟨rest, hf⟩ := filter_head_of_keyed _ row hk hrow
  obtain ⟨⟨store, failure⟩⟩ := m
  simp only at hfail hf
  subst hfail
  have hlt : ¬ row.ID < 1 := by omega
  simp [MovieModel.Get, hlt, DB.QueryRowContext, Store.run, hf]

theorem validateMovie_congr (year : Int) (v : Validator) (a b : Movie)
    (h1 : a.Title = b.Title) (h2 : a.Year = b.Year) (h3 : a.Runtime = b.Runtime)
    (h4 : a.Genres = b.Genres) : ValidateMovie year v a = ValidateMovie year v b := by
  simp only [ValidateMovie, h1, h2, h3, h4]

theorem copyTo_keeps (input : updateInput) (movie : Movie) :
    (input.copyTo movie).ID = movie.ID ∧ (input.copyTo movie).CreatedAt = movie.CreatedAt ∧
      (input.copyTo movie).Version = movie.Version := by
  obtain ⟨title, year, runtime, genres⟩ := input
  cases title <;> cases year <;> cases runtime <;> cases genres <;>
    simp [updateInput.copyTo]

theorem copyTo_fields_idem (input : updateInput) (movie other : Movie)
    (h1 : other.Title = (input.copyTo movie).Title)
    (h2 : other.Year = (input.copyTo movie).Year)
    (h3 : other.Runtime = (input.copyTo movie).Runtime)
    (h4 : other.Genres = (input.copyTo movie).Genres) :
    (input.copyTo other).Title = (input.copyTo movie).Title ∧
    (input.copyTo other).Year = (input.copyTo movie).Year ∧
    (input.copyTo other).Runtime = (input.copyTo movie).Runtime ∧
    (input.copyTo other).Genres = (input.copyTo movie).Genres := by
  obtain ⟨title, year, runtime, genres⟩ := input
  cases title <;> cases year <;> cases runtime <;> cases genres <;>
    simp_all [updateInput.copyTo]

/-- Past the decoding and the validation, `updateMovieHandler` lets the store run the
calls of the other requests, calls `Update` with the merged record and answers by the
error it gets. -/
theorem updateMovieHandler_of_valid (app : application) (w : ResponseWriter) (r : Request)
    (world : World) (id : Int) (stored : Movie) (input : updateInput)
    (hid : app.readIDParam r = .ok id)
    (hget : world.Movies.Get id = (world.Movies, .ok stored))
    (hbody : app.readJSON r = .ok input)
    (hvalid : (ValidateMovie world.year validator.New (input.copyTo stored)).Valid = true) :
    app.updateMovieHandler w r world =
      let updated := (world.Movies.run world.concurrent).Update (input.copyTo stored)
      let after : World := { world with Movies := updated.m, concurrent := [] }
      match updated.err with
      | some .ErrEditConflict => app.editConflictResponse w r after
      | some err => app.serverErrorResponse w r err after
      | none =>
          match app.writeJSON w 200 (.movie updated.movie) [] with
          | (w, some err) => app.serverErrorResponse w r err after
          | (w, none) => { w := w, world := after, panicked := none } := by
  simp only [application.updateMovieHandler, hid, hget, hbody, hvalid]
  rfl

theorem updateSet_copyTo (input : updateInput) (stored : Movie) :
    Stmt.updateSet (input.copyTo stored).Title (input.copyTo stored).Year
      (input.copyTo stored).Runtime (input.copyTo stored).Genres stored =
      { input.copyTo stored with Version := stored.Version + 1 } := by
  obtain ⟨h1, h2, -⟩ := copyTo_keeps input stored
  simp only [Stmt.updateSet, Movie.mk.injEq, and_true, true_and]
  exact ⟨h1.symm, h2.symm⟩

/-- The stored record after a successful `Update` with the merged record. -/
theorem update_copyTo_mem (m : MovieModel) (input : updateInput) (stored : Movie)
    (hfail : m.DB.failure = none) (hstored : stored ∈ m.DB.store.movies) :
    ({ input.copyTo stored with Version := stored.Version + 1 } : Movie) ∈
      (m.Update (input.copyTo stored)).m.DB.store.movies := by
  obtain ⟨h1, -, h3⟩ := copyTo_keeps input stored
  rw [update_store, hfail]
  simp only [Store.run, List.mem_map]
  refine ⟨stored, hstored, ?_⟩
  have hh : Stmt.updateHits (input.copyTo stored).ID (input.copyTo stored).Version stored
      = true := (updateHits_iff _ _ _).2 ⟨h1.symm, h3.symm⟩
  simp only [hh, if_true]
  exact updateSet_copyTo input stored

/-- With the record in a keyed store, a working driver, a decodable and valid body, a
working encoder and no interference, `updateMovieHandler` answers 200 with the merged
record at the next version, which is also what the store then holds. -/
theorem updateMovieHandler_success (app : application) (w : ResponseWriter) (r : Request)
    (world : World) (stored : Movie) (input : updateInput)
    (hid : app.readIDParam r = .ok stored.ID) (hpos : 1 ≤ stored.ID)
    (hfail : world.Movies.DB.failure = none) (hk : world.Movies.DB.store.Keyed)
    (hstored : stored ∈ world.Movies.DB.store.movies)
    (hbody : app.readJSON r = .ok input)
    (hvalid : (ValidateMovie world.year validator.New (input.copyTo stored)).Valid = true)
    (hjson : ∀ data, ∃ text, app.marshal data = .ok text)
    (hquiet : world.concurrent = []) :
    app.updateMovieHandler w r world =
      { w := { w with written := w.written ++
            [.json 200 (.movie { input.copyTo stored with Version := stored.Version + 1 })] },
        world := { world with Movies := (world.Movies.Update (input.copyTo stored)).m },
        panicked := none } := by
  obtain ⟨h1, -, h3⟩ := copyTo_keeps input stored
  have hget := get_of_mem world.Movies stored hfail hk hstored hpos
  have herr : (world.Movies.Update (input.copyTo stored)).err = none :=
    (update_err_eq_none_iff _ _).2 ⟨hfail, stored, hstored, h1.symm, h3.symm⟩
  have hmovie := update_movie_version _ _ herr
  obtain ⟨text, htext⟩ := hjson
    (.movie (world.Movies.Update (input.copyTo stored)).movie)
  have hres : (world.Movies.Update (input.copyTo stored)).movie =
      { input.copyTo stored with Version := stored.Version + 1 } := by
    have hfields : ∀ (m : MovieModel) (movie : Movie),
        (m.Update movie).movie = { movie with Version := (m.Update movie).movie.Version } := by
      intro m movie
      unfold MovieModel.Update
      split <;> rfl
    rw [hfields, hmovie, h3]
  rw [updateMovieHandler_of_valid app w r world stored.ID stored input hid hget hbody hvalid]
  simp only [hquiet, MovieModel.run, List.foldl_nil, herr, application.writeJSON, htext,
    List.append_nil]
  rw [hres]

/-- C3, as amended. Through `updateMovieHandler` behind `requirePermission("movies:write")`,
for an activated user holding the permission and a valid request against a movie stored
at version 3: the update succeeds and leaves the movie at version 4; a `Update` that
still carries the stale version 3 is then refused with `ErrEditConflict` and changes
nothing; through the handler an update carries a stale version when the update of
another writer lands between the handler's read and its write, and it is then answered
with the edit-conflict response; the identical request sent again re-reads the record at
version 4 and succeeds, leaving version 5. -/
theorem update_v3_to_v4_then_stale_conflicts (app : application) (w w' : ResponseWriter)
    (r : Request) (world : World) (u : UserRecord) (perms : List String) (stored : Movie)
    (input : updateInput) (other : Movie)
    (huser : r.user = some (.loaded u)) (hact : u.Activated = true)
    (hperms : app.GetAllForUser u.ID = .ok perms)
    (hcode : Permissions.Include perms "movies:write" = true)
    (hid : app.readIDParam r = .ok stored.ID) (hpos : 1 ≤ stored.ID)
    (hfail : world.Movies.DB.failure = none) (hk : world.Movies.DB.store.Keyed)
    (hstored : stored ∈ world.Movies.DB.store.movies) (hver : stored.Version = 3)
    (hbody : app.readJSON r = .ok input)
    (hvalid : (ValidateMovie world.year validator.New (input.copyTo stored)).Valid = true)
    (hjson : ∀ data, ∃ text, app.marshal data = .ok text)
    (hquiet : world.concurrent = [])
    (hother : other.ID = stored.ID ∧ other.Version = 3) :
    ((app.patchMovieRoute w r world).w.written =
        w.written ++ [.json 200 (.movie { input.copyTo stored with Version := 4 })] ∧
      (app.patchMovieRoute w r world).panicked = none ∧
      (app.patchMovieRoute w r world).world.Movies.DB.store.version stored.ID = some 4) ∧
    (((app.patchMovieRoute w r world).world.Movies.Update (input.copyTo stored)).err
        = some .ErrEditConflict ∧
      ((app.patchMovieRoute w r world).world.Movies.Update (input.copyTo stored)).m
        = (app.patchMovieRoute w r world).world.Movies) ∧
    ((app.patchMovieRoute w r { world with concurrent := [.Update other] }).w.written =
        w.written ++ [.editConflict] ∧
      (app.patchMovieRoute w r { world with concurrent := [.Update other] }).world.Movies
        = (world.Movies.Update other).m ∧
      (app.patchMovieRoute w r
          { world with concurrent := [.Update other] }).world.Movies.DB.store.version
        stored.ID = some 4) ∧
    ((app.patchMovieRoute w' r (app.patchMovieRoute w r world).world).w.written =
        w'.written ++ [.json 200 (.movie { input.copyTo stored with Version := 5 })] ∧
      (app.patchMovieRoute w' r (app.patchMovieRoute w r world).world).world.Movies.DB.store.version
        stored.ID = some 5) := by
  obtain ⟨h1, -, h3⟩ := copyTo_keeps input stored
  have hgate : ∀ (x : ResponseWriter) (y : World),
      app.patchMovieRoute x r y = app.updateMovieHandler x r y := fun x y =>
    requirePermission_pass app _ _ x r y u perms huser hact hperms hcode
  have hversion : world.Movies.DB.store.version stored.ID = some 3 := by
    rw [← hver]; exact version_of_mem _ stored hk hstored
  -- the first request
  have hfirst := updateMovieHandler_success app w r world stored input hid hpos hfail hk
    hstored hbody hvalid hjson hquiet
  have hmem := update_copyTo_mem world.Movies input stored hfail hstored
  have hfail1 : (world.Movies.Update (input.copyTo stored)).m.DB.failure = none := by
    rw [update_failure_kept, hfail]
  have hk1 : (world.Movies.Update (input.copyTo stored)).m.DB.store.Keyed :=
    apply_keyed world.Movies (.Update (input.copyTo stored)) hk
  have hv1 : (world.Movies.Update (input.copyTo stored)).m.DB.store.version stored.ID
      = some 4 := by
    have := version_of_mem _ _ hk1 hmem
    simpa [h1, hver] using this
  -- the stale update
  have hstale : ((world.Movies.Update (input.copyTo stored)).m.Update
      (input.copyTo stored)).err ≠ none := by
    intro hc
    obtain ⟨-, row, hrow, hrid, hrver⟩ := (update_err_eq_none_iff _ _).1 hc
    have hrv := version_of_mem _ row hk1 hrow
    rw [hrid, h1, hv1, hrver, h3, hver] at hrv
    cases hrv
  obtain ⟨hstale1, hstale2⟩ := update_err_of_miss _ _ hfail1 hstale
  -- the update of another writer between read and write
  have hrace := updateTwice_one_winner world.Movies other (input.copyTo stored) 3 hfail
    (hother.1.trans h1.symm) hother.2 (h3.trans hver) (by rw [hother.1]; exact hversion)
  have hget := get_of_mem world.Movies stored hfail hk hstored hpos
  have hraced := updateMovieHandler_of_valid app w r
    { world with concurrent := [.Update other] } stored.ID stored input hid hget hbody hvalid
  simp only [MovieModel.updateTwice, Prod.mk.injEq] at hrace
  obtain ⟨⟨-, hr2, hr3⟩, hr4⟩ := hrace
  simp only [MovieModel.run, List.foldl_cons, List.foldl_nil, MovieModel.apply, hr2, hr3]
    at hraced
  -- the identical request once more
  have hvalid2 : (ValidateMovie world.year validator.New
      (input.copyTo { input.copyTo stored with Version := stored.Version + 1 })).Valid
      = true := by
    obtain ⟨e1, e2, e3, e4⟩ := copyTo_fields_idem input stored
      { input.copyTo stored with Version := stored.Version + 1 } rfl rfl rfl rfl
    rw [validateMovie_congr _ _ _ (input.copyTo stored) e1 e2 e3 e4]
    exact hvalid
  have hagain := updateMovieHandler_success app w' r
    { world with Movies := (world.Movies.Update (input.copyTo stored)).m }
    { input.copyTo stored with Version := stored.Version + 1 } input
    (by simpa [h1] using hid) (by simpa [h1] using hpos) hfail1 hk1 hmem hbody hvalid2 hjson
    hquiet
  have hmem2 := update_copyTo_mem (world.Movies.Update (input.copyTo stored)).m input
    { input.copyTo stored with Version := stored.Version + 1 } hfail1 hmem
  have hk2 := apply_keyed (world.Movies.Update (input.copyTo stored)).m
    (.Update (input.copyTo { input.copyTo stored with Version := stored.Version + 1 })) hk1
  have hv2 := version_of_mem _ _ hk2 hmem2
  obtain ⟨g1, -, g3⟩ := copyTo_keeps input
    { input.copyTo stored with Version := stored.Version + 1 }
  obtain ⟨e1, e2, e3, e4⟩ := copyTo_fields_idem input stored
    { input.copyTo stored with Version := stored.Version + 1 } rfl rfl rfl rfl
  have hfive : ({ input.copyTo { input.copyTo stored with Version := stored.Version + 1 }
      with Version := stored.Version + 1 + 1 } : Movie) =
      { input.copyTo stored with Version := 5 } := by
    obtain ⟨-, g2, -⟩ := copyTo_keeps input
      { input.copyTo stored with Version := stored.Version + 1 }
    simp only [Movie.mk.injEq]
    refine ⟨g1, g2, e1, e2, e3, e4, ?_⟩
    omega
  simp only [hgate]
  refine ⟨?_, ?_, ?_, ?_⟩
  · rw [hfirst]
    refine ⟨?_, rfl, hv1⟩
    simp [hver]
  · rw [hfirst]
    exact ⟨hstale1, hstale2⟩
  · rw [hraced]
    refine ⟨rfl, rfl, ?_⟩
    rw [← hother.1]
    simpa [hother.1] using hr4
  · rw [hfirst, hagain]
    refine ⟨?_, ?_⟩
    · simp only [List.append_cancel_left_eq, List.cons.injEq, and_true]
      exact congrArg _ (congrArg _ hfive)
    · have e : stored.ID = (input.copyTo
          { input.copyTo stored with Version := stored.Version + 1 }).ID :=
        (g1.trans h1).symm
      rw [e]
      refine Eq.trans hv2 ?_
      show some (stored.Version + 1 + 1) = some 5
      rw [hver]
      rfl

/-- C3, at an instance: the sample PATCH request of user 7 against the sample store. -/
theorem update_v3_to_v4_then_stale_conflicts_witness :
    (sampleApp.patchMovieRoute sampleWriter samplePatch sampleWorld).w.written =
        sampleWriter.written ++ [.json 200 (.movie
          { ({ Title := none, Year := none, Runtime := some 103, Genres := none } :
              updateInput).copyTo sampleMovie with Version := 4 })] ∧
    ((sampleApp.patchMovieRoute sampleWriter samplePatch sampleWorld).world.Movies.Update
        (({ Title := none, Year := none, Runtime := some 103, Genres := none } :
              updateInput).copyTo sampleMovie)).err = some .ErrEditConflict :=
  have h := update_v3_to_v4_then_stale_conflicts sampleApp sampleWriter sampleWriter
    samplePatch sampleWorld { ID := 7, Activated := true } ["movies:read", "movies:write"]
    sampleMovie { Title := none, Year := none, Runtime := some 103, Genres := none }
    { sampleMovie with Title := "Casablanca (1942)" }
    rfl rfl rfl (by decide) rfl (by decide) rfl (by decide) (by decide) rfl rfl (by decide)
    (fun _ => ⟨"", rfl⟩) rfl ⟨rfl, rfl⟩
  ⟨h.1.1, h.2.1.1⟩

/-- C3, as stated, fails: the sample PATCH request succeeds against the movie at version 3
and leaves it at version 4, and the identical request sent again is not answered with the
edit-conflict response: it succeeds as well and leaves the movie at version 5. -/
theorem retried_update_is_not_an_edit_conflict :
    (sampleApp.patchMovieRoute sampleWriter samplePatch sampleWorld).w.written =
        [.json 200 (.movie { sampleMovie with Runtime := 103, Version := 4 })] ∧
    (sampleApp.patchMovieRoute sampleWriter samplePatch sampleWorld).world.Movies.DB.store.version 1
      = some 4 ∧
    (sampleApp.patchMovieRoute sampleWriter samplePatch
      (sampleApp.patchMovieRoute sampleWriter samplePatch sampleWorld).world).w.written
        ≠ [.editConflict] ∧
    (sampleApp.patchMovieRoute sampleWriter samplePatch
      (sampleApp.patchMovieRoute sampleWriter samplePatch sampleWorld).world).w.written =
        [.json 200 (.movie { sampleMovie with Runtime := 103, Version := 5 })] ∧
    (sampleApp.patchMovieRoute sampleWriter samplePatch
      (sampleApp.patchMovieRoute sampleWriter samplePatch
        sampleWorld).world).world.Movies.DB.store.version 1 = some 5 := by
  decide

/-! ## The rate limiter -/

/-- With the limiter enabled and a remote address that splits, the request path updates
the entry of the host and lets the request through exactly when `Allow` says so. -/
theorem rateLimit_of_split (app : application) (next : Handler) (cs : clients) (now : Int)
    (w : ResponseWriter) (r : Request) (world : World) (ip port : String)
    (hen : app.config.limiter.enabled = true)
    (hsplit : app.SplitHostPort r.RemoteAddr = .ok (ip, port)) :
    app.rateLimit next cs now w r world =
      (Function.update cs ip
          (some { limiter := ((app.limiterOf cs ip).Allow now).1, lastSeen := now }),
        if ((app.limiterOf cs ip).Allow now).2 then next w r world
        else app.rateLimitExceededResponse w r world) := by
  unfold application.rateLimit application.limiterOf
  simp only [hen, if_true, hsplit]
  cases hcs : cs ip <;> cases hal : (rate.Limiter.Allow _ now).2 <;> simp [hal]

/-- C9. With rate limiting enabled, a request whose remote address `SplitHostPort` cannot
split is answered with the server-error response (and not with the rate-limit-exceeded
response), whatever the next handler is (it is not invoked), and the client map is
returned as it was: no entry is created or modified. -/
theorem unsplittable_address_is_a_server_error (app : application) (next : Handler)
    (cs : clients) (now : Int) (w : ResponseWriter) (r : Request) (world : World)
    (err : String) (hen : app.config.limiter.enabled = true)
    (hsplit : app.SplitHostPort r.RemoteAddr = .error err) :
    app.rateLimit next cs now w r world
      = (cs, app.serverErrorResponse w r (.other err) world) ∧
    (app.rateLimit next cs now w r world).1 = cs ∧
    (app.rateLimit next cs now w r world).2.w.written
      = w.written ++ [.serverError (.other err)] ∧
    (app.rateLimit next cs now w r world).2.w.written
      ≠ w.written ++ [.rateLimitExceeded] ∧
    (app.rateLimit next cs now w r world).2.world = world ∧
    (∀ other : Handler,
      app.rateLimit other cs now w r world = app.rateLimit next cs now w r world) := by
  have h : ∀ other : Handler, app.rateLimit other cs now w r world
      = (cs, app.serverErrorResponse w r (.other err) world) := by
    intro other
    simp [application.rateLimit, hen, hsplit]
  refine ⟨h next, ?_, ?_, ?_, ?_, ?_⟩
  · rw [h next]
  · rw [h next]; rfl
  · rw [h next]
    simp [application.serverErrorResponse, respond]
  · rw [h next]; rfl
  · intro other
    rw [h other, h next]

/-- C9, at an instance: a request whose remote address has no port. -/
theorem unsplittable_address_is_a_server_error_witness :
    (sampleApp.rateLimit sampleApp.deleteMovieHandler (fun _ => none) 0 sampleWriter
      { samplePatch with RemoteAddr := "10.0.0.1" } sampleWorld).2.w.written
      = sampleWriter.written ++ [.serverError (.other "missing port in address")] :=
  (unsplittable_address_is_a_server_error sampleApp sampleApp.deleteMovieHandler
    (fun _ => none) 0 sampleWriter { samplePatch with RemoteAddr := "10.0.0.1" }
    sampleWorld "missing port in address" rfl rfl).2.2.1

/-- C10. For a request without an Authorization header (`Get` yields the empty string),
`authenticate` does nothing but add the `Vary: Authorization` header and call the next
handler on the request that carries the anonymous user, in the world as it was: no
`GetForToken` lookup has been recorded, the outcome does not depend on the token store,
and with a next handler that writes nothing, nothing is written. -/
theorem no_credential_is_anonymous (app : application) (next : Handler)
    (w : ResponseWriter) (r : Request) (world : World)
    (hnone : r.HeaderGet "Authorization" = "") :
    app.authenticate next w r world
      = next (w.HeaderAdd "Vary" "Authorization") (app.contextSetUser r .Anonymous) world ∧
    (app.contextSetUser r .Anonymous).user = some .Anonymous ∧
    (∀ lookup : String → String → Except Error UserRecord,
      ({ app with GetForToken := lookup } : application).authenticate next w r world
        = app.authenticate next w r world) ∧
    (app.authenticate (fun w' _ world' => { w := w', world := world', panicked := none })
        w r world).w.written = w.written ∧
    (app.authenticate (fun w' _ world' => { w := w', world := world', panicked := none })
        w r world).world.lookups = world.lookups ∧
    (app.authenticate (fun w' _ world' => { w := w', world := world', panicked := none })
        w r world).panicked = none := by
  have h : ∀ (a : application) (n : Handler), a.authenticate n w r world
      = n (w.HeaderAdd "Vary" "Authorization") (a.contextSetUser r .Anonymous) world := by
    intro a n
    simp [application.authenticate, hnone]
  refine ⟨h app next, rfl, ?_, ?_, ?_, ?_⟩
  · intro lookup
    rw [h, h]
    rfl
  · rw [h]; rfl
  · rw [h]
  · rw [h]

/-- C10, at an instance: the sample request, which has no headers. -/
theorem no_credential_is_anonymous_witness :
    sampleApp.authenticate sampleApp.patchMovieRoute sampleWriter samplePatch sampleWorld
      = sampleApp.patchMovieRoute (sampleWriter.HeaderAdd "Vary" "Authorization")
          (sampleApp.contextSetUser samplePatch .Anonymous) sampleWorld :=
  (no_credential_is_anonymous sampleApp sampleApp.patchMovieRoute sampleWriter samplePatch
    sampleWorld rfl).1

/-! ## Buckets at one instant and over time -/

theorem refill_same_instant (lim : rate.Limiter) (now : Int)
    (hl : lim.last = none ∨ lim.last = some now) (hle : lim.tokens ≤ lim.burst) :
    lim.refill now = lim.tokens := by
  have h0 : (match lim.last with
      | none => (0 : Int)
      | some t => max 0 (now - t)) = 0 := by
    rcases hl with h | h <;> simp [h]
  simp only [rate.Limiter.refill, h0]
  simp [hle]

theorem allow_same_instant (lim : rate.Limiter) (now : Int) (t : ℕ)
    (ht : lim.tokens = t) (hle : (t : Int) ≤ lim.burst)
    (hl : lim.last = none ∨ lim.last = some now) :
    lim.Allow now =
      ({ lim with tokens := ((t - 1 : ℕ) : ℚ), last := some now }, decide (1 ≤ t)) := by
  have hq : lim.tokens ≤ lim.burst := by
    rw [ht]
    exact_mod_cast hle
  have hre := refill_same_instant lim now hl hq
  simp only [rate.Limiter.Allow, hre, ht]
  cases t with
  | zero => simp
  | succ k => simp

theorem limiterOf_update (app : application) (cs : clients) (ip : String) (c : client) :
    app.limiterOf (Function.update cs ip (some c)) ip = c.limiter := by
  simp [application.limiterOf]

/-- Requests of one client at one instant: as many as the bucket holds tokens go to the
next handler, the others are answered with the rate-limit-exceeded response. -/
theorem serve_same_instant (app : application) (next : Handler) (ip : String) (now : Int)
    (hen : app.config.limiter.enabled = true) :
    ∀ (reqs : List (ResponseWriter × Request × World)) (cs : clients) (t : ℕ),
      (∀ q ∈ reqs, ∃ port, app.SplitHostPort q.2.1.RemoteAddr = .ok (ip, port)) →
      (app.limiterOf cs ip).tokens = t →
      (t : Int) ≤ (app.limiterOf cs ip).burst →
      ((app.limiterOf cs ip).last = none ∨ (app.limiterOf cs ip).last = some now) →
      (app.serve next cs (reqs.map fun q => Event.request now q.1 q.2.1 q.2.2)).2.map
          (fun s => s.out) =
        (reqs.take t).map (fun q => next q.1 q.2.1 q.2.2) ++
        (reqs.drop t).map (fun q => app.rateLimitExceededResponse q.1 q.2.1 q.2.2) := by
  intro reqs
  induction reqs with
  | nil => intro cs t _ _ _ _; simp [application.serve]
  | cons q rest ih =>
    intro cs t hfrom ht hle hl
    obtain ⟨port, hsplit⟩ := hfrom q (List.mem_cons_self _ _)
    have hrest : ∀ q' ∈ rest, ∃ port, app.SplitHostPort q'.2.1.RemoteAddr = .ok (ip, port) :=
      fun q' hq' => hfrom q' (List.mem_cons_of_mem _ hq')
    have hstep := rateLimit_of_split app next cs now q.1 q.2.1 q.2.2 ip port hen hsplit
    have hal := allow_same_instant (app.limiterOf cs ip) now t ht hle hl
    simp only [List.map_cons, application.serve, hstep, hal]
    have hnext := ih
      (Function.update cs ip (some
        { limiter := { app.limiterOf cs ip with tokens := ((t - 1 : ℕ) : ℚ), last := some now },
          lastSeen := now }))
      (t - 1) hrest (by rw [limiterOf_update]) (by rw [limiterOf_update]; simp only; omega)
      (by rw [limiterOf_update]; exact Or.inr rfl)
    rw [hnext]
    cases t with
    | zero => simp
    | succ k => simp

/-- C6. With rate limiting enabled and burst `b`, for a client identity that the map does
not track, `b + 1` requests from it that reach `rateLimit` at the same instant: the first
`b` of them are passed to the next handler and the last one is answered with the
rate-limit-exceeded response. -/
theorem burst_plus_one_admits_exactly_burst (app : application) (next : Handler)
    (ip : String) (now : Int) (cs : clients) (b : ℕ)
    (reqs : List (ResponseWriter × Request × World))
    (hen : app.config.limiter.enabled = true) (hb : app.config.limiter.burst = b)
    (hnew : cs ip = none)
    (hfrom : ∀ q ∈ reqs, ∃ port, app.SplitHostPort q.2.1.RemoteAddr = .ok (ip, port))
    (hlen : reqs.length = b + 1) :
    (app.serve next cs (reqs.map fun q => Event.request now q.1 q.2.1 q.2.2)).2.map
        (fun s => s.out) =
      (reqs.take b).map (fun q => next q.1 q.2.1 q.2.2) ++
      (reqs.drop b).map (fun q => app.rateLimitExceededResponse q.1 q.2.1 q.2.2) ∧
    (reqs.take b).length = b ∧ (reqs.drop b).length = 1 := by
  have hlim : app.limiterOf cs ip
      = rate.NewLimiter app.config.limiter.rps app.config.limiter.burst := by
    simp [application.limiterOf, hnew]
  refine ⟨serve_same_instant app next ip now hen reqs cs b hfrom ?_ ?_ ?_, ?_, ?_⟩
  · rw [hlim, hb]; simp [rate.NewLimiter]
  · rw [hlim, hb]; simp [rate.NewLimiter]
  · rw [hlim]; exact Or.inl rfl
  · simp [hlen]
  · simp [hlen]

/-- C6, at an instance: five requests of one client at instant 0, with the default burst
of 4. -/
theorem burst_plus_one_admits_exactly_burst_witness :
    (sampleApp.serve sampleApp.patchMovieRoute (fun _ => none)
        ((List.replicate 5 (sampleWriter, samplePatch, sampleWorld)).map
          fun q => Event.request 0 q.1 q.2.1 q.2.2)).2.map (fun s => s.out) =
      ((List.replicate 5 (sampleWriter, samplePatch, sampleWorld)).take 4).map
        (fun q => sampleApp.patchMovieRoute q.1 q.2.1 q.2.2) ++
      ((List.replicate 5 (sampleWriter, samplePatch, sampleWorld)).drop 4).map
        (fun q => sampleApp.rateLimitExceededResponse q.1 q.2.1 q.2.2) :=
  (burst_plus_one_admits_exactly_burst sampleApp sampleApp.patchMovieRoute "10.0.0.1" 0
    (fun _ => none) 4 (List.replicate 5 (sampleWriter, samplePatch, sampleWorld)) rfl rfl rfl
    (fun q hq => ⟨"5000", by rw [List.eq_of_mem_replicate hq]; rfl⟩) rfl).1

theorem allow_new (rps : ℚ) (burst now : Int) :
    (rate.NewLimiter rps burst).Allow now =
      if 1 ≤ burst then
        ({ limit := rps, burst := burst, tokens := burst - 1, last := some now }, true)
      else ({ limit := rps, burst := burst, tokens := burst, last := some now }, false) := by
  have hre : (rate.NewLimiter rps burst).refill now = burst :=
    refill_same_instant _ now (Or.inl rfl) (le_refl _)
  simp only [rate.Limiter.Allow, hre]
  have hcast : ((1 : ℚ) ≤ (burst : ℚ)) ↔ 1 ≤ burst := by exact_mod_cast Iff.rfl
  by_cases h : 1 ≤ burst
  · simp [h, hcast.2 h, rate.NewLimiter]
  · have h' : ¬ (1 : ℚ) ≤ (burst : ℚ) := fun hc => h (hcast.1 hc)
    simp [h, h', rate.NewLimiter]

/-- C7. A sweep pass at time `now` removes from the client map every identity whose
`lastSeen` lies more than three minutes before `now`, keeps every other tracked identity
with its client state (bucket included) unchanged and adds none. The first request
afterwards from an evicted identity finds no entry: it installs a bucket made by
`NewLimiter(rps, burst)`, which holds `burst` tokens, and takes its first token from it
exactly as for an identity never seen before; the old state plays no part. -/
theorem sweep_evicts_idle_clients_only (app : application) (next : Handler) (cs : clients)
    (now later : Int) (w : ResponseWriter) (r : Request) (world : World) (ip port : String)
    (hen : app.config.limiter.enabled = true)
    (hsplit : app.SplitHostPort r.RemoteAddr = .ok (ip, port)) :
    (∀ host c, cs host = some c → now - c.lastSeen > 3 * rate.Minute →
        sweep now cs host = none) ∧
    (∀ host c, cs host = some c → ¬ (now - c.lastSeen > 3 * rate.Minute) →
        sweep now cs host = some c) ∧
    (∀ host, cs host = none → sweep now cs host = none) ∧
    (∀ c, cs ip = some c → now - c.lastSeen > 3 * rate.Minute →
      (rate.NewLimiter app.config.limiter.rps app.config.limiter.burst).tokens
          = app.config.limiter.burst ∧
      (app.rateLimit next (sweep now cs) later w r world).1 ip =
        some { limiter := ((rate.NewLimiter app.config.limiter.rps
                  app.config.limiter.burst).Allow later).1,
               lastSeen := later } ∧
      (1 ≤ app.config.limiter.burst →
        (app.rateLimit next (sweep now cs) later w r world).1 ip =
          some { limiter := { limit := app.config.limiter.rps,
                              burst := app.config.limiter.burst,
                              tokens := app.config.limiter.burst - 1,
                              last := some later },
                 lastSeen := later } ∧
        (app.rateLimit next (sweep now cs) later w r world).2 = next w r world) ∧
      (∀ fresh : clients, fresh ip = none →
        (app.rateLimit next fresh later w r world).1 ip
            = (app.rateLimit next (sweep now cs) later w r world).1 ip ∧
        (app.rateLimit next fresh later w r world).2
            = (app.rateLimit next (sweep now cs) later w r world).2)) := by
  have hnone : ∀ (m : clients), m ip = none →
      app.rateLimit next m later w r world =
        (Function.update m ip (some
          { limiter := ((rate.NewLimiter app.config.limiter.rps
                app.config.limiter.burst).Allow later).1, lastSeen := later }),
         if ((rate.NewLimiter app.config.limiter.rps
                app.config.limiter.burst).Allow later).2 then next w r world
         else app.rateLimitExceededResponse w r world) := by
    intro m hm
    rw [rateLimit_of_split app next m later w r world ip port hen hsplit]
    simp [application.limiterOf, hm]
  refine ⟨?_, ?_, ?_, ?_⟩
  · intro host c hc hold
    simp [sweep, hc, hold]
  · intro host c hc hyoung
    simp [sweep, hc, hyoung]
  · intro host hc
    simp [sweep, hc]
  · intro c hc hold
    have hgone : sweep now cs ip = none := by simp [sweep, hc, hold]
    refine ⟨rfl, ?_, ?_, ?_⟩
    · rw [hnone _ hgone]; simp
    · intro hb
      rw [hnone _ hgone, allow_new]
      simp [hb]
    · intro fresh hfresh
      rw [hnone _ hgone, hnone _ hfresh]
      simp

/-- C7, at an instance: a client last seen at time 0 is swept four minutes later and then
sends a request. -/
theorem sweep_evicts_idle_clients_only_witness :
    sweep (4 * rate.Minute)
      (fun host => if host = "10.0.0.1" then
        some { limiter := { limit := 2, burst := 4, tokens := 0, last := some 0 },
               lastSeen := 0 } else none) "10.0.0.1" = none :=
  (sweep_evicts_idle_clients_only sampleApp sampleApp.patchMovieRoute
    (fun host => if host = "10.0.0.1" then
        some { limiter := { limit := 2, burst := 4, tokens := 0, last := some 0 },
               lastSeen := 0 } else none)
    (4 * rate.Minute) (5 * rate.Minute) sampleWriter samplePatch sampleWorld "10.0.0.1"
    "5000" rfl rfl).1 "10.0.0.1"
    { limiter := { limit := 2, burst := 4, tokens := 0, last := some 0 }, lastSeen := 0 }
    rfl (by decide)

theorem allow_after_gap (rps : ℚ) (burst t now : Int) (hr : 0 < rps) (hb : 1 ≤ burst)
    (hgap : 1 / rps < ((now - t : Int) : ℚ) / rate.Second) :
    ({ limit := rps, burst := burst, tokens := burst - 1, last := some t } :
        rate.Limiter).Allow now =
      ({ limit := rps, burst := burst, tokens := burst - 1, last := some now }, true) := by
  have hS : (0 : ℚ) < (rate.Second : ℚ) := by simp [rate.Second]
  have h1 : (0 : ℚ) < ((now - t : Int) : ℚ) / rate.Second :=
    lt_trans (by positivity) hgap
  have hd : (0 : ℚ) < ((now - t : Int) : ℚ) := by
    have := mul_pos h1 hS
    rwa [div_mul_cancel₀ _ (ne_of_gt hS)] at this
  have hmax : max 0 (now - t) = now - t := max_eq_right (by exact_mod_cast hd.le)
  have hone : (1 : ℚ) < rps * ((now - t : Int) : ℚ) / rate.Second := by
    have := (div_lt_iff₀ hr).1 hgap
    calc (1 : ℚ) < ((now - t : Int) : ℚ) / rate.Second * rps := this
      _ = rps * ((now - t : Int) : ℚ) / rate.Second := by ring
  have hre : ({ limit := rps, burst := burst, tokens := burst - 1, last := some t } :
      rate.Limiter).refill now = burst := by
    simp only [rate.Limiter.refill, hmax]
    apply min_eq_left
    linarith
  have hcast : (1 : ℚ) ≤ (burst : ℚ) := by exact_mod_cast hb
  simp only [rate.Limiter.Allow, hre, hcast, if_true]

theorem steady_sweep (app : application) (ip : String) (cs : clients) (last : Option Int)
    (now : Int) (h : app.steady ip cs last) : app.steady ip (sweep now cs) last := by
  rcases h with h | ⟨c, t, hc, hl, hlim⟩
  · left; simp [sweep, h]
  · by_cases hold : now - c.lastSeen > 3 * rate.Minute
    · left; simp [sweep, hc, hold]
    · right; exact ⟨c, t, by simp [sweep, hc, hold], hl, hlim⟩

/-- A client with a steady bucket whose requests are spaced more than `1 / rps` apart has
every request passed to the next handler, whatever else reaches the limiter in between. -/
theorem serve_spaced (app : application) (next : Handler) (ip : String)
    (hen : app.config.limiter.enabled = true) (hr : 0 < app.config.limiter.rps)
    (hb : 1 ≤ app.config.limiter.burst) :
    ∀ (events : List Event) (cs : clients) (last : Option Int),
      app.steady ip cs last → app.spaced ip last events →
      ∀ s ∈ (app.serve next cs events).2,
        (∃ port, app.SplitHostPort s.r.RemoteAddr = .ok (ip, port)) →
        s.out = next s.w s.r s.world := by
  intro events
  induction events with
  | nil => intro cs last _ _ s hs; simp [application.serve] at hs
  | cons e rest ih =>
    intro cs last hst hsp s hs hfrom
    cases e with
    | sweep now =>
      simp only [application.serve] at hs
      simp only [application.spaced] at hsp
      exact ih _ last (steady_sweep app ip cs last now hst) hsp s hs hfrom
    | request now w r world =>
      simp only [application.serve, List.mem_cons] at hs
      simp only [application.spaced] at hsp
      cases hsplit : app.SplitHostPort r.RemoteAddr with
      | error err =>
        rw [hsplit] at hsp
        simp only at hsp
        have hcs : (app.rateLimit next cs now w r world).1 = cs := by
          simp [application.rateLimit, hen, hsplit]
        rcases hs with rfl | hs
        · obtain ⟨port, hp⟩ := hfrom
          simp only at hp
          rw [hsplit] at hp
          cases hp
        · rw [hcs] at hs
          exact ih cs last hst hsp s hs hfrom
      | ok hp =>
        obtain ⟨host, port⟩ := hp
        rw [hsplit] at hsp
        simp only at hsp
        have hstep := rateLimit_of_split app next cs now w r world host port hen hsplit
        by_cases hhost : host = ip
        · subst hhost
          simp only [if_true] at hsp
          obtain ⟨hgap, hsp'⟩ := hsp
          have hal : (app.limiterOf cs host).Allow now =
              ({ limit := app.config.limiter.rps, burst := app.config.limiter.burst,
                 tokens := app.config.limiter.burst - 1, last := some now }, true) := by
            rcases hst with hnone | ⟨c, t, hc, hl, hlim⟩
            · simp only [application.limiterOf, hnone]
              rw [allow_new]
              simp [hb]
            · simp only [application.limiterOf, hc, hlim]
              exact allow_after_gap _ _ t now hr hb (hgap t hl)
          rw [hstep, hal] at hs
          simp only [if_true] at hs
          rcases hs with rfl | hs
          · rfl
          · refine ih _ (some now) ?_ hsp' s hs hfrom
            right
            exact ⟨{ limiter := { limit := app.config.limiter.rps,
                                  burst := app.config.limiter.burst,
                                  tokens := app.config.limiter.burst - 1,
                                  last := some now },
                     lastSeen := now }, now, by simp, rfl, rfl⟩
        · simp only [hhost, if_false] at hsp
          rw [hstep] at hs
          rcases hs with rfl | hs
          · obtain ⟨port', hp⟩ := hfrom
            simp only at hp
            rw [hsplit] at hp
            cases hp
            exact absurd rfl hhost
          · refine ih _ last ?_ hsp s hs hfrom
            have hne : ip ≠ host := fun hc => hhost hc.symm
            rcases hst with hnone | ⟨c, t, hc, hl, hlim⟩
            · left
              simp only
              rw [Function.update_noteq hne]
              exact hnone
            · right
              refine ⟨c, t, ?_, hl, hlim⟩
              simp only
              rw [Function.update_noteq hne]
              exact hc

/-- C8, as amended. With rate limiting enabled with refill rate `r > 0` and burst
`b ≥ 1`, for a client identity that the map does not track yet and whose successive
requests are spaced more than `1 / r` seconds apart, every request of the client through
`rateLimit` is passed to the next handler, the one that creates the bucket included,
whatever sweep passes and requests of other clients come in between. -/
theorem spaced_requests_are_admitted (app : application) (next : Handler) (ip : String)
    (events : List Event) (cs : clients)
    (hen : app.config.limiter.enabled = true) (hr : 0 < app.config.limiter.rps)
    (hb : 1 ≤ app.config.limiter.burst) (hnew : cs ip = none)
    (hsp : app.spaced ip none events) :
    ∀ s ∈ (app.serve next cs events).2,
      (∃ port, app.SplitHostPort s.r.RemoteAddr = .ok (ip, port)) →
      s.out = next s.w s.r s.world :=
  serve_spaced app next ip hen hr hb events cs none (Or.inl hnew) hsp

/-- C8, at an instance: two requests of one client one second apart, at 2 requests per
second and burst 4, with a sweep pass in between; both reach the next handler. -/
theorem spaced_requests_are_admitted_witness :
    (sampleApp.serve sampleApp.patchMovieRoute (fun _ => none)
        [.request 0 sampleWriter samplePatch sampleWorld, .sweep 500000000,
         .request 1000000000 sampleWriter samplePatch sampleWorld]).2.map (fun s => s.out)
      = [sampleApp.patchMovieRoute sampleWriter samplePatch sampleWorld,
         sampleApp.patchMovieRoute sampleWriter samplePatch sampleWorld] := by
  have h := spaced_requests_are_admitted sampleApp sampleApp.patchMovieRoute "10.0.0.1"
    [.request 0 sampleWriter samplePatch sampleWorld, .sweep 500000000,
     .request 1000000000 sampleWriter samplePatch sampleWorld] (fun _ => none) rfl
    (by simp [sampleApp]) (by decide) rfl
    (by
      simp [application.spaced, sampleApp, samplePatch, rate.Second]
      norm_num)
  simp only [application.serve, List.mem_cons, List.mem_singleton, List.not_mem_nil,
    or_false, forall_eq_or_imp, forall_eq] at h
  have hsplit : ∃ port, sampleApp.SplitHostPort samplePatch.RemoteAddr
      = .ok ("10.0.0.1", port) := ⟨"5000", rfl⟩
  simp only [application.serve, List.map_cons, List.map_nil, h.1 hsplit, h.2 hsplit]

theorem allow_of_no_burst (lim : rate.Limiter) (now : Int) (h : lim.burst ≤ 0) :
    (lim.Allow now).2 = false ∧ (lim.Allow now).1.burst = lim.burst := by
  have hre : lim.refill now ≤ 0 := by
    have h1 : lim.refill now ≤ lim.burst := min_le_left _ _
    have h2 : (lim.burst : ℚ) ≤ 0 := by exact_mod_cast h
    exact le_trans h1 h2
  have hnot : ¬ (1 : ℚ) ≤ lim.refill now := by
    intro hc
    linarith
  simp [rate.Limiter.Allow, hnot]

/-- A client whose bucket has no capacity is answered with the rate-limit-exceeded
response, and its bucket still has no capacity afterwards. -/
theorem rateLimit_of_no_burst (app : application) (next : Handler) (cs : clients)
    (now : Int) (w : ResponseWriter) (r : Request) (world : World) (ip port : String)
    (hen : app.config.limiter.enabled = true)
    (hsplit : app.SplitHostPort r.RemoteAddr = .ok (ip, port))
    (hb : (app.limiterOf cs ip).burst ≤ 0) :
    (app.rateLimit next cs now w r world).2 = app.rateLimitExceededResponse w r world ∧
    (app.limiterOf (app.rateLimit next cs now w r world).1 ip).burst ≤ 0 := by
  obtain ⟨h1, h2⟩ := allow_of_no_burst (app.limiterOf cs ip) now hb
  rw [rateLimit_of_split app next cs now w r world ip port hen hsplit]
  refine ⟨by simp [h1], ?_⟩
  simp only [limiterOf_update, h2]
  exact hb

/-- C8, as stated, fails: with the burst set to 0 and 2 requests per second, a client
that sends a request at time 0 and the next one two seconds later (more than `1 / 2`
second apart) has both answered with the rate-limit-exceeded response, where the next
handler would have answered 200. -/
theorem zero_burst_rejects_spaced_requests :
    sampleAppNoBurst.config.limiter.enabled = true ∧
    (1 : ℚ) / sampleAppNoBurst.config.limiter.rps
      < ((2 * rate.Second - 0 : Int) : ℚ) / rate.Second ∧
    (sampleAppNoBurst.serve sampleAppNoBurst.patchMovieRoute (fun _ => none)
        [.request 0 sampleWriter samplePatch sampleWorld,
         .request (2 * rate.Second) sampleWriter samplePatch sampleWorld]).2.map
        (fun s => s.out.w.written) = [[.rateLimitExceeded], [.rateLimitExceeded]] ∧
    (sampleAppNoBurst.patchMovieRoute sampleWriter samplePatch sampleWorld).w.written
      = [.json 200 (.movie { sampleMovie with Runtime := 103, Version := 4 })] := by
  refine ⟨rfl, ?_, ?_, by decide⟩
  · simp [sampleAppNoBurst, rate.Second]
    norm_num
  · have hsplit : sampleAppNoBurst.SplitHostPort samplePatch.RemoteAddr
        = .ok ("10.0.0.1", "5000") := rfl
    obtain ⟨h1, h2⟩ := rateLimit_of_no_burst sampleAppNoBurst
      sampleAppNoBurst.patchMovieRoute (fun _ => none) 0 sampleWriter samplePatch
      sampleWorld "10.0.0.1" "5000" rfl hsplit (by decide)
    obtain ⟨h3, -⟩ := rateLimit_of_no_burst sampleAppNoBurst
      sampleAppNoBurst.patchMovieRoute
      (sampleAppNoBurst.rateLimit sampleAppNoBurst.patchMovieRoute (fun _ => none) 0
        sampleWriter samplePatch sampleWorld).1
      (2 * rate.Second) sampleWriter samplePatch sampleWorld "10.0.0.1" "5000" rfl hsplit h2
    simp only [application.serve, List.map_cons, List.map_nil, h1, h3]
    rfl

end api


namespace strings

/-! ## Splitting at a separator -/

theorem splitChars_ne_nil (sep : Char) (l : List Char) : splitChars sep l ≠ [] := by
  cases l with
  | nil => simp [splitChars]
  | cons c cs =>
    simp only [splitChars]
    split
    · simp
    · split <;> simp

theorem splitChars_of_not_mem (sep : Char) (l : List Char) (h : sep ∉ l) :
    splitChars sep l = [l] := by
  induction l with
  | nil => rfl
  | cons c cs ih =>
    have hc : ¬ c = sep := fun hc => h (hc ▸ List.mem_cons_self _ _)
    have hcs : sep ∉ cs := fun hm => h (List.mem_cons_of_mem _ hm)
    simp [splitChars, hc, ih hcs]

theorem splitChars_append (sep : Char) (a rest : List Char) (h : sep ∉ a) :
    splitChars sep (a ++ sep :: rest) = a :: splitChars sep rest := by
  induction a with
  | nil => simp [splitChars]
  | cons c cs ih =>
    have hc : ¬ c = sep := fun hc => h (hc ▸ List.mem_cons_self _ _)
    have hcs : sep ∉ cs := fun hm => h (List.mem_cons_of_mem _ hm)
    simp [splitChars, hc, ih hcs]

theorem splitChars_eq_singleton (sep : Char) (l b : List Char)
    (h : splitChars sep l = [b]) : l = b ∧ sep ∉ b := by
  induction l generalizing b with
  | nil =>
    simp only [splitChars, List.cons.injEq, and_true] at h
    subst h
    exact ⟨rfl, List.not_mem_nil _⟩
  | cons c cs ih =>
    simp only [splitChars] at h
    split at h
    · simp only [List.cons.injEq] at h
      exact absurd h.2 (splitChars_ne_nil sep cs)
    · rename_i hc
      split at h
      · rename_i hnil
        exact absurd hnil (splitChars_ne_nil sep cs)
      · rename_i piece pieces hp
        simp only [List.cons.injEq] at h
        obtain ⟨rfl, rfl⟩ := h
        obtain ⟨rfl, hno⟩ := ih piece hp
        refine ⟨rfl, ?_⟩
        intro hm
        rcases List.mem_cons.1 hm with hm | hm
        · exact hc hm.symm
        · exact hno hm

theorem splitChars_eq_pair (sep : Char) (l a b : List Char)
    (h : splitChars sep l = [a, b]) : l = a ++ sep :: b ∧ sep ∉ a ∧ sep ∉ b := by
  induction l generalizing a with
  | nil => simp [splitChars] at h
  | cons c cs ih =>
    simp only [splitChars] at h
    split at h
    · rename_i hc
      simp only [List.cons.injEq] at h
      obtain ⟨rfl, hrest⟩ := h
      obtain ⟨rfl, hno⟩ := splitChars_eq_singleton sep cs b hrest
      subst hc
      exact ⟨rfl, List.not_mem_nil _, hno⟩
    · rename_i hc
      split at h
      · simp at h
      · rename_i piece pieces hp
        simp only [List.cons.injEq] at h
        obtain ⟨rfl, rfl⟩ := h
        obtain ⟨rfl, hna, hnb⟩ := ih piece hp
        refine ⟨rfl, ?_, hnb⟩
        intro hm
        rcases List.mem_cons.1 hm with hm | hm
        · exact hc hm.symm
        · exact hna hm

theorem split_bearer (token : String) (hno : ' ' ∉ token.data) :
    Split ("Bearer " ++ token) ' ' = ["Bearer", token] := by
  have hdata : ("Bearer " ++ token).data = "Bearer".data ++ ' ' :: token.data := by
    simp [String.data_append]
  have hsplit : splitChars ' ' ("Bearer " ++ token).data = ["Bearer".data, token.data] := by
    rw [hdata, splitChars_append ' ' _ _ (by decide), splitChars_of_not_mem ' ' _ hno]
  unfold Split
  rw [hsplit]
  rfl

/-- A string splits at spaces into exactly two parts of which the first is `Bearer` if and
only if it is `"Bearer "` followed by a token without a space; the second part is then
that token. -/
theorem split_bearer_iff (header : String) :
    ((Split header ' ').length = 2 ∧ (Split header ' ').head? = some "Bearer") ↔
      ∃ token : String, header = "Bearer " ++ token ∧ ' ' ∉ token.data := by
  constructor
  · rintro ⟨hlen, hhead⟩
    simp only [Split, List.length_map] at hlen
    obtain ⟨a, b, hab⟩ : ∃ a b, splitChars ' ' header.data = [a, b] := by
      match hs : splitChars ' ' header.data, hlen with
      | [a, b], _ => exact ⟨a, b, rfl⟩
    simp only [Split, hab, List.map_cons, List.head?_cons, Option.some.injEq] at hhead
    have ha : a = "Bearer".data := by rw [← hhead]
    obtain ⟨hl, -, hnb⟩ := splitChars_eq_pair ' ' _ a b hab
    refine ⟨String.mk b, ?_, hnb⟩
    apply String.ext
    rw [hl, ha]
    simp [String.data_append]
  · rintro ⟨token, rfl, hno⟩
    rw [split_bearer token hno]
    exact ⟨rfl, rfl⟩

end strings

namespace api

open data validator

/-! ## Credentials -/

theorem bearer_ne_empty (token : String) : "Bearer " ++ token ≠ "" := by
  intro h
  have := congrArg String.length h
  simp only [String.length_append] at this
  have h7 : "Bearer ".length = 7 := by decide
  have h0 : "".length = 0 := by decide
  omega

/-- A header that does not split into `Bearer` and one more part is refused before any
lookup. -/
theorem authenticate_of_malformed (app : application) (next : Handler)
    (w : ResponseWriter) (r : Request) (world : World)
    (hsome : r.HeaderGet "Authorization" ≠ "")
    (hbad : ¬ ((strings.Split (r.HeaderGet "Authorization") ' ').length = 2 ∧
      (strings.Split (r.HeaderGet "Authorization") ' ').head? = some "Bearer")) :
    app.authenticate next w r world =
      app.invalidAuthenticationTokenResponse (w.HeaderAdd "Vary" "Authorization") r world := by
  have hbad' : (strings.Split (r.HeaderGet "Authorization") ' ').length ≠ 2 ∨
      (strings.Split (r.HeaderGet "Authorization") ' ').head? ≠ some "Bearer" := by
    by_cases hl : (strings.Split (r.HeaderGet "Authorization") ' ').length = 2
    · right; exact fun hh => hbad ⟨hl, hh⟩
    · left; exact hl
  simp only [application.authenticate, hsome, if_false, hbad', if_true]

/-- A header of the form `Bearer <token>` is judged by `ValidateTokenPlaintext` and then,
if the token is well formed, by one lookup with the scope `ScopeAuthentication`. -/
theorem authenticate_of_bearer (app : application) (next : Handler)
    (w : ResponseWriter) (r : Request) (world : World) (token : String)
    (hh : r.HeaderGet "Authorization" = "Bearer " ++ token) (hno : ' ' ∉ token.data) :
    app.authenticate next w r world =
      if (app.ValidateTokenPlaintext validator.New token).Valid then
        match app.GetForToken ScopeAuthentication token with
        | .error .ErrRecordNotFound =>
            app.invalidAuthenticationTokenResponse (w.HeaderAdd "Vary" "Authorization") r
              { world with lookups := world.lookups ++ [(ScopeAuthentication, token)] }
        | .error err =>
            app.serverErrorResponse (w.HeaderAdd "Vary" "Authorization") r err
              { world with lookups := world.lookups ++ [(ScopeAuthentication, token)] }
        | .ok record =>
            next (w.HeaderAdd "Vary" "Authorization") (app.contextSetUser r (.loaded record))
              { world with lookups := world.lookups ++ [(ScopeAuthentication, token)] }
      else
        app.invalidAuthenticationTokenResponse (w.HeaderAdd "Vary" "Authorization") r
          world := by
  have hsplit := strings.split_bearer token hno
  have hlen : ¬ (["Bearer", token].length ≠ 2 ∨
      ["Bearer", token].head? ≠ some "Bearer") := by simp
  simp only [application.authenticate, hh, bearer_ne_empty, if_false, hsplit, hlen]
  have hget : ["Bearer", token].getD 1 "" = token := rfl
  rw [hget]
  by_cases hv : (app.ValidateTokenPlaintext validator.New token).Valid = true
  · simp only [hv, Bool.not_true, if_true, Bool.false_eq_true, if_false]
  · have hv' : (app.ValidateTokenPlaintext validator.New token).Valid = false := by
      simpa using hv
    simp only [hv', Bool.not_false, if_true, Bool.false_eq_true, if_false]

/-- C11. For every non-empty Authorization value that is not `"Bearer "` followed by one
token without a space, or whose token fails `ValidateTokenPlaintext`, `authenticate`
answers with the invalid-authentication-token response on the writer that carries the
`Vary` header, leaves the world as it was (no `GetForToken` lookup is recorded), and
gives the same outcome whatever the token store and the next handler are: neither is
called. -/
theorem malformed_credential_is_refused_without_lookup (app : application)
    (next : Handler) (w : ResponseWriter) (r : Request) (world : World)
    (hsome : r.HeaderGet "Authorization" ≠ "")
    (hbad : (¬ ∃ token : String,
        r.HeaderGet "Authorization" = "Bearer " ++ token ∧ ' ' ∉ token.data) ∨
      (∃ token : String,
        r.HeaderGet "Authorization" = "Bearer " ++ token ∧ ' ' ∉ token.data ∧
        (app.ValidateTokenPlaintext validator.New token).Valid = false)) :
    app.authenticate next w r world =
      app.invalidAuthenticationTokenResponse (w.HeaderAdd "Vary" "Authorization") r world ∧
    (app.authenticate next w r world).w.written
      = w.written ++ [.invalidAuthenticationToken] ∧
    (app.authenticate next w r world).world = world ∧
    (app.authenticate next w r world).world.lookups = world.lookups ∧
    (∀ (other : Handler) (lookup : String → String → Except Error UserRecord),
      ({ app with GetForToken := lookup } : application).authenticate other w r world
        = app.authenticate next w r world) := by
  have h : ∀ (a : application) (n : Handler),
      a.ValidateTokenPlaintext = app.ValidateTokenPlaintext →
      a.authenticate n w r world =
        a.invalidAuthenticationTokenResponse (w.HeaderAdd "Vary" "Authorization") r
          world := by
    intro a n hval
    rcases hbad with hform | ⟨token, hh, hno, hinvalid⟩
    · exact authenticate_of_malformed a n w r world hsome
        (fun hc => hform ((strings.split_bearer_iff _).1 hc))
    · rw [authenticate_of_bearer a n w r world token hh hno, hval, hinvalid]
      rfl
  refine ⟨h app next rfl, ?_, ?_, ?_, ?_⟩
  · rw [h app next rfl]; rfl
  · rw [h app next rfl]; rfl
  · rw [h app next rfl]; rfl
  · intro other lookup
    rw [h app next rfl]
    exact h { app with GetForToken := lookup } other rfl

/-- C11, at an instance: a header of the Basic scheme, with the sample application. -/
theorem malformed_credential_is_refused_without_lookup_witness :
    (sampleApp.authenticate sampleApp.patchMovieRoute sampleWriter
      (sampleArrival "Basic dXNlcjpwYXNz") sampleWorld).w.written
      = sampleWriter.written ++ [.invalidAuthenticationToken] :=
  (malformed_credential_is_refused_without_lookup sampleApp sampleApp.patchMovieRoute
    sampleWriter (sampleArrival "Basic dXNlcjpwYXNz") sampleWorld (by decide)
    (Or.inl (by
      rintro ⟨token, h, -⟩
      have hd := congrArg String.data h
      simp [sampleArrival, Request.HeaderGet, String.data_append] at hd))).2.1

/-- C12. For a request that carries an Authorization header: when the header is
`"Bearer "` followed by a well-formed token and `GetForToken`, called with the scope
`ScopeAuthentication` and that token, returns a user record, `authenticate` calls the
next handler on the request that carries that user (the one lookup is recorded); when the
lookup reports `ErrRecordNotFound`, the request ends with the invalid-authentication-token
response; and whenever no such lookup returned a user, the outcome is a response of
`authenticate` itself, the same for every next handler: the next handler is not invoked
and no request with a user is passed on. -/
theorem concrete_user_only_from_token_lookup (app : application) (next : Handler)
    (w : ResponseWriter) (r : Request) (world : World)
    (hsome : r.HeaderGet "Authorization" ≠ "") :
    (∀ (token : String) (record : UserRecord),
      r.HeaderGet "Authorization" = "Bearer " ++ token → ' ' ∉ token.data →
      (app.ValidateTokenPlaintext validator.New token).Valid = true →
      app.GetForToken ScopeAuthentication token = .ok record →
      app.authenticate next w r world =
        next (w.HeaderAdd "Vary" "Authorization") (app.contextSetUser r (.loaded record))
          { world with lookups := world.lookups ++ [(ScopeAuthentication, token)] }) ∧
    (∀ token : String,
      r.HeaderGet "Authorization" = "Bearer " ++ token → ' ' ∉ token.data →
      (app.ValidateTokenPlaintext validator.New token).Valid = true →
      app.GetForToken ScopeAuthentication token = .error .ErrRecordNotFound →
      app.authenticate next w r world =
        app.invalidAuthenticationTokenResponse (w.HeaderAdd "Vary" "Authorization") r
          { world with lookups := world.lookups ++ [(ScopeAuthentication, token)] }) ∧
    ((¬ ∃ (token : String) (record : UserRecord),
        r.HeaderGet "Authorization" = "Bearer " ++ token ∧ ' ' ∉ token.data ∧
        (app.ValidateTokenPlaintext validator.New token).Valid = true ∧
        app.GetForToken ScopeAuthentication token = .ok record) →
      ∃ (resp : Response) (lookups : List (String × String)),
        ∀ other : Handler,
          app.authenticate other w r world =
            respond resp (w.HeaderAdd "Vary" "Authorization") r
              { world with lookups := lookups }) := by
  refine ⟨?_, ?_, ?_⟩
  · intro token record hh hno hv hg
    rw [authenticate_of_bearer app next w r world token hh hno, hv, if_pos rfl, hg]
  · intro token hh hno hv hg
    rw [authenticate_of_bearer app next w r world token hh hno, hv, if_pos rfl, hg]
  · intro hnone
    by_cases hform : ∃ token : String,
        r.HeaderGet "Authorization" = "Bearer " ++ token ∧ ' ' ∉ token.data
    · obtain ⟨token, hh, hno⟩ := hform
      cases hv : (app.ValidateTokenPlaintext validator.New token).Valid with
      | false =>
        refine ⟨.invalidAuthenticationToken, world.lookups, fun other => ?_⟩
        rw [authenticate_of_bearer app other w r world token hh hno, hv]
        rfl
      | true =>
        cases hg : app.GetForToken ScopeAuthentication token with
        | ok record => exact absurd ⟨token, record, hh, hno, hv, hg⟩ hnone
        | error err =>
          cases err with
          | ErrRecordNotFound =>
            refine ⟨.invalidAuthenticationToken,
              world.lookups ++ [(ScopeAuthentication, token)], fun other => ?_⟩
            rw [authenticate_of_bearer app other w r world token hh hno, hv, if_pos rfl, hg]
            rfl
          | ErrEditConflict =>
            refine ⟨.serverError .ErrEditConflict,
              world.lookups ++ [(ScopeAuthentication, token)], fun other => ?_⟩
            rw [authenticate_of_bearer app other w r world token hh hno, hv, if_pos rfl, hg]
            rfl
          | other msg =>
            refine ⟨.serverError (.other msg),
              world.lookups ++ [(ScopeAuthentication, token)], fun other => ?_⟩
            rw [authenticate_of_bearer app other w r world token hh hno, hv, if_pos rfl, hg]
            rfl
    · refine ⟨.invalidAuthenticationToken, world.lookups, fun other => ?_⟩
      rw [authenticate_of_malformed app other w r world hsome
        (fun hc => hform ((strings.split_bearer_iff _).1 hc))]
      rfl

/-- C12, at an instance: the sample token, which the token store resolves to user 7. -/
theorem concrete_user_only_from_token_lookup_witness :
    sampleAppWithToken.authenticate sampleAppWithToken.patchMovieRoute sampleWriter
        (sampleArrival ("Bearer " ++ sampleToken)) sampleWorld =
      sampleAppWithToken.patchMovieRoute (sampleWriter.HeaderAdd "Vary" "Authorization")
        (sampleAppWithToken.contextSetUser (sampleArrival ("Bearer " ++ sampleToken))
          (.loaded { ID := 7, Activated := true }))
        { sampleWorld with
          lookups := sampleWorld.lookups ++ [(ScopeAuthentication, sampleToken)] } :=
  (concrete_user_only_from_token_lookup sampleAppWithToken
    sampleAppWithToken.patchMovieRoute sampleWriter
    (sampleArrival ("Bearer " ++ sampleToken)) sampleWorld (by decide)).1 sampleToken
    { ID := 7, Activated := true } rfl (by decide) rfl rfl

/-! ## Activation and permissions -/

/-- The three checks of `requireActivatedUser`, in their order. -/
theorem requireActivatedUser_eq (app : application) (next : Handler) (w : ResponseWriter)
    (r : Request) (world : World) (user : User) (huser : r.user = some user) :
    app.requireActivatedUser next w r world =
      if user.IsAnonymous then app.authenticationRequiredResponse w r world
      else if user.Activated then next w r world
      else app.inactiveAccountResponse w r world := by
  simp only [application.requireActivatedUser, application.requireAuthenticatedUser,
    application.contextGetUser, huser]
  cases user.IsAnonymous <;> cases user.Activated <;> simp

/-- The checks of `requirePermission`, in their order. -/
theorem requirePermission_eq (app : application) (code : String) (next : Handler)
    (w : ResponseWriter) (r : Request) (world : World) (user : User)
    (huser : r.user = some user) :
    app.requirePermission code next w r world =
      if user.IsAnonymous then app.authenticationRequiredResponse w r world
      else if user.Activated then
        match app.GetAllForUser user.ID with
        | .error err => app.serverErrorResponse w r err world
        | .ok permissions =>
            if Permissions.Include permissions code then next w r world
            else app.notPermittedResponse w r world
      else app.inactiveAccountResponse w r world := by
  simp only [application.requirePermission]
  rw [requireActivatedUser_eq app _ w r world user huser]
  simp only [application.contextGetUser, huser]
  cases user.IsAnonymous <;> cases user.Activated <;>
    simp only [if_true, if_false, Bool.false_eq_true]
  cases app.GetAllForUser user.ID with
  | error err => rfl
  | ok permissions =>
    cases hi : Permissions.Include permissions code <;> simp [hi]

theorem written_append_ne (l : List Response) (a : Response) : l ≠ l ++ [a] := by
  intro h
  have := congrArg List.length h
  simp at this

theorem written_append_inj (l : List Response) (a b : Response) :
    l ++ [a] = l ++ [b] ↔ a = b := by
  simp

/-- C13. For a handler wrapped by `requireActivatedUser` or by `requirePermission` and an
identity in the request context: an anonymous identity gets the authentication-required
response from both wrappers; and with a wrapped handler that writes nothing, the
inactive-account response is written exactly for an identity that is not anonymous and
not activated, and the not-permitted response is written only for an identity that is
not anonymous and is activated. -/
theorem gates_are_ordered (app : application) (code : String) (next : Handler)
    (w : ResponseWriter) (r : Request) (world : World) (user : User)
    (huser : r.user = some user) :
    (user.IsAnonymous = true →
      app.requireActivatedUser next w r world = app.authenticationRequiredResponse w r world ∧
      app.requirePermission code next w r world
        = app.authenticationRequiredResponse w r world ∧
      (app.requirePermission code next w r world).w.written
        = w.written ++ [.authenticationRequired]) ∧
    ((app.requireActivatedUser quiet w r world).w.written = w.written ++ [.inactiveAccount] ↔
      user.IsAnonymous = false ∧ user.Activated = false) ∧
    ((app.requirePermission code quiet w r world).w.written
        = w.written ++ [.inactiveAccount] ↔
      user.IsAnonymous = false ∧ user.Activated = false) ∧
    ((app.requireActivatedUser quiet w r world).w.written ≠ w.written ++ [.notPermitted]) ∧
    ((app.requirePermission code quiet w r world).w.written = w.written ++ [.notPermitted] ↔
      user.IsAnonymous = false ∧ user.Activated = true ∧
        ∃ permissions, app.GetAllForUser user.ID = .ok permissions ∧
          Permissions.Include permissions code = false) := by
  have ha := requireActivatedUser_eq app
  have hp := requirePermission_eq app code
  refine ⟨?_, ?_, ?_, ?_, ?_⟩
  · intro hanon
    rw [ha next w r world user huser, hp next w r world user huser, hanon]
    exact ⟨rfl, rfl, rfl⟩
  · rw [ha quiet w r world user huser]
    cases user.IsAnonymous <;> cases user.Activated <;>
      simp [application.authenticationRequiredResponse, application.inactiveAccountResponse,
        respond, quiet, written_append_ne]
  · rw [hp quiet w r world user huser]
    cases user.IsAnonymous <;> cases user.Activated <;>
      simp only [if_true, if_false, Bool.false_eq_true] <;>
      try simp [application.authenticationRequiredResponse,
        application.inactiveAccountResponse, respond]
    cases app.GetAllForUser user.ID with
    | error err => simp [application.serverErrorResponse, respond]
    | ok permissions =>
      cases hi : Permissions.Include permissions code <;>
        simp [application.notPermittedResponse, respond, quiet, written_append_ne, hi]
  · rw [ha quiet w r world user huser]
    cases user.IsAnonymous <;> cases user.Activated <;>
      simp [application.authenticationRequiredResponse, application.inactiveAccountResponse,
        respond, quiet, written_append_ne]
  · rw [hp quiet w r world user huser]
    cases user.IsAnonymous <;> cases user.Activated <;>
      simp only [if_true, if_false, Bool.false_eq_true] <;>
      try simp [application.authenticationRequiredResponse,
        application.inactiveAccountResponse, respond]
    cases hg : app.GetAllForUser user.ID with
    | error err => simp [application.serverErrorResponse, respond]
    | ok permissions =>
      cases hi : Permissions.Include permissions code <;>
        simp [application.notPermittedResponse, respond, quiet, written_append_ne, hi]

/-- C13, at an instance: the sample request with the anonymous user in its context. -/
theorem gates_are_ordered_witness :
    sampleApp.requirePermission "movies:write" sampleApp.updateMovieHandler sampleWriter
        (sampleApp.contextSetUser samplePatch .Anonymous) sampleWorld
      = sampleApp.authenticationRequiredResponse sampleWriter
        (sampleApp.contextSetUser samplePatch .Anonymous) sampleWorld :=
  ((gates_are_ordered sampleApp "movies:write" sampleApp.updateMovieHandler sampleWriter
    (sampleApp.contextSetUser samplePatch .Anonymous) sampleWorld .Anonymous rfl).1 rfl).2.1

/-- C14. For every permission code and every identity in the request context: when
`GetAllForUser` succeeds for the identity, the handler wrapped by `requirePermission`
invokes the next handler if the identity is not anonymous, is activated and its
permissions include the code, and otherwise answers itself, the same for every next
handler; and when the lookup, which is made for an identity that is not anonymous and is
activated, fails, the answer is the server-error response with that error, again the
same for every next handler. -/
theorem permission_gate_passes_iff (app : application) (code : String) (next : Handler)
    (w : ResponseWriter) (r : Request) (world : World) (user : User)
    (huser : r.user = some user) :
    (∀ permissions, app.GetAllForUser user.ID = .ok permissions →
      (user.IsAnonymous = false ∧ user.Activated = true ∧
          Permissions.Include permissions code = true →
        app.requirePermission code next w r world = next w r world) ∧
      (¬ (user.IsAnonymous = false ∧ user.Activated = true ∧
          Permissions.Include permissions code = true) →
        ∃ resp, resp ∈ [Response.authenticationRequired, .inactiveAccount, .notPermitted] ∧
          ∀ other : Handler,
            app.requirePermission code other w r world = respond resp w r world)) ∧
    (∀ err, user.IsAnonymous = false → user.Activated = true →
      app.GetAllForUser user.ID = .error err →
      app.requirePermission code next w r world = app.serverErrorResponse w r err world ∧
      (app.requirePermission code next w r world).w.written
        = w.written ++ [.serverError err] ∧
      ∀ other : Handler,
        app.requirePermission code other w r world
          = app.requirePermission code next w r world) := by
  have hp := requirePermission_eq app code
  refine ⟨?_, ?_⟩
  · intro permissions hperms
    refine ⟨?_, ?_⟩
    · rintro ⟨h1, h2, h3⟩
      rw [hp next w r world user huser, h1, h2, hperms]
      simp [h3]
    · intro hnot
      cases h1 : user.IsAnonymous with
      | true =>
        refine ⟨.authenticationRequired, by simp, fun other => ?_⟩
        rw [hp other w r world user huser, h1]
        rfl
      | false =>
        cases h2 : user.Activated with
        | false =>
          refine ⟨.inactiveAccount, by simp, fun other => ?_⟩
          rw [hp other w r world user huser, h1, h2]
          rfl
        | true =>
          cases h3 : Permissions.Include permissions code with
          | true => exact absurd ⟨h1, h2, h3⟩ hnot
          | false =>
            refine ⟨.notPermitted, by simp, fun other => ?_⟩
            rw [hp other w r world user huser, h1, h2, hperms]
            simp [h3, application.notPermittedResponse]
  · intro err h1 h2 herr
    have h : ∀ other : Handler, app.requirePermission code other w r world
        = app.serverErrorResponse w r err world := by
      intro other
      rw [hp other w r world user huser, h1, h2, herr]
      rfl
    refine ⟨h next, ?_, fun other => ?_⟩
    · rw [h next]; rfl
    · rw [h other, h next]

/-- C14, at an instance: the sample request of user 7, who holds `movies:write`. -/
theorem permission_gate_passes_iff_witness :
    sampleApp.requirePermission "movies:write" sampleApp.updateMovieHandler sampleWriter
        samplePatch sampleWorld
      = sampleApp.updateMovieHandler sampleWriter samplePatch sampleWorld :=
  ((permission_gate_passes_iff sampleApp "movies:write" sampleApp.updateMovieHandler
    sampleWriter samplePatch sampleWorld (.loaded { ID := 7, Activated := true }) rfl).1
    ["movies:read", "movies:write"] rfl).1 ⟨rfl, rfl, by decide⟩

/-- C15, as amended. For a user in the request context whose permission set is empty and
a handler wrapped by `requirePermission` with any code: an activated user who is not
anonymous gets the not-permitted response; an anonymous user gets the
authentication-required response and a user who is not activated the inactive-account
response; and in each case the outcome is the same for every wrapped handler, which is
therefore not invoked. -/
theorem empty_permissions_never_reach_the_handler (app : application) (code : String)
    (next : Handler) (w : ResponseWriter) (r : Request) (world : World) (user : User)
    (huser : r.user = some user) (hempty : app.GetAllForUser user.ID = .ok []) :
    (user.IsAnonymous = false → user.Activated = true →
      app.requirePermission code next w r world = app.notPermittedResponse w r world ∧
      (app.requirePermission code next w r world).w.written
        = w.written ++ [.notPermitted]) ∧
    (user.IsAnonymous = true →
      app.requirePermission code next w r world
        = app.authenticationRequiredResponse w r world) ∧
    (user.IsAnonymous = false → user.Activated = false →
      app.requirePermission code next w r world = app.inactiveAccountResponse w r world) ∧
    (∃ resp, resp ∈ [Response.authenticationRequired, .inactiveAccount, .notPermitted] ∧
      ∀ other : Handler,
        app.requirePermission code other w r world = respond resp w r world) ∧
    (app.requirePermission code next w r world).world = world := by
  have hp := requirePermission_eq app code
  have hinc : Permissions.Include [] code = false := by simp [Permissions.Include]
  have hall : ∀ other : Handler, app.requirePermission code other w r world =
      if user.IsAnonymous then app.authenticationRequiredResponse w r world
      else if user.Activated then app.notPermittedResponse w r world
      else app.inactiveAccountResponse w r world := by
    intro other
    rw [hp other w r world user huser, hempty]
    simp [hinc]
  refine ⟨?_, ?_, ?_, ?_, ?_⟩
  · intro h1 h2
    rw [hall next, h1, h2]
    exact ⟨rfl, rfl⟩
  · intro h1
    rw [hall next, h1]
    rfl
  · intro h1 h2
    rw [hall next, h1, h2]
    rfl
  · cases h1 : user.IsAnonymous with
    | true =>
      exact ⟨.authenticationRequired, by simp, fun other => by rw [hall other, h1]; rfl⟩
    | false =>
      cases h2 : user.Activated with
      | true => exact ⟨.notPermitted, by simp, fun other => by rw [hall other, h1, h2]; rfl⟩
      | false =>
        exact ⟨.inactiveAccount, by simp, fun other => by rw [hall other, h1, h2]; rfl⟩
  · rw [hall next]
    cases user.IsAnonymous <;> cases user.Activated <;> rfl

/-- C15, at an instance: the activated user 9, for whom the permission store of the sample
application holds no permission. -/
theorem empty_permissions_never_reach_the_handler_witness :
    (sampleApp.requirePermission "movies:write" sampleApp.updateMovieHandler sampleWriter
        { samplePatch with user := some (.loaded { ID := 9, Activated := true }) }
        sampleWorld).w.written
      = sampleWriter.written ++ [.notPermitted] :=
  ((empty_permissions_never_reach_the_handler sampleApp "movies:write"
    sampleApp.updateMovieHandler sampleWriter
    { samplePatch with user := some (.loaded { ID := 9, Activated := true }) } sampleWorld
    (.loaded { ID := 9, Activated := true }) rfl rfl).1 rfl rfl).2

/-- C15, as stated, fails: user 8 of the sample application has an empty permission set
and an account that is not activated; the PATCH route answers with the inactive-account
response, not with the not-permitted response. The anonymous user, who has no permission
either, gets the authentication-required response. -/
theorem empty_permissions_is_not_always_permission_denied :
    sampleApp.GetAllForUser (User.loaded { ID := 8, Activated := false }).ID = .ok [] ∧
    (sampleApp.patchMovieRoute sampleWriter sampleInactivePatch sampleWorld).w.written
      = [.inactiveAccount] ∧
    (sampleApp.patchMovieRoute sampleWriter sampleInactivePatch sampleWorld).w.written
      ≠ [.notPermitted] ∧
    sampleApp.GetAllForUser User.Anonymous.ID = .ok [] ∧
    (sampleApp.patchMovieRoute sampleWriter (sampleApp.contextSetUser samplePatch .Anonymous)
      sampleWorld).w.written = [.authenticationRequired] :=
  ⟨rfl, by decide, by decide, rfl, by decide⟩

end api

namespace validator

/-! ## Recorded errors -/

theorem mem_check (v : Validator) (ok : Bool) (key message : String) (e : String × String) :
    e ∈ (v.Check ok key message).Errors ↔
      e ∈ v.Errors ∨ (ok = false ∧ v.hasKey key = false ∧ e = (key, message)) := by
  cases ok with
  | true => simp [Validator.Check]
  | false =>
    have hcheck : (v.Check false key message).Errors =
        (if v.hasKey key = true then v else { Errors := v.Errors ++ [(key, message)] }).Errors :=
      rfl
    rw [hcheck]
    cases hk : v.hasKey key <;> simp

theorem hasKey_check (v : Validator) (ok : Bool) (key message k : String) :
    (v.Check ok key message).hasKey k = (v.hasKey k || (!ok && decide (key = k))) := by
  cases ok with
  | true => simp [Validator.Check]
  | false =>
    by_cases hk : key = k
    · subst hk
      cases hv : v.hasKey key with
      | true => simp_all [Validator.Check, Validator.AddError, Validator.hasKey]
      | false =>
        simp only [Validator.hasKey] at hv
        simp [Validator.Check, Validator.AddError, Validator.hasKey, hv]
    · cases hv : v.hasKey key with
      | true => simp_all [Validator.Check, Validator.AddError, Validator.hasKey]
      | false =>
        simp only [Validator.hasKey] at hv
        simp [Validator.Check, Validator.AddError, Validator.hasKey, hv, hk,
          List.any_append]

theorem hasKey_new (k : String) : New.hasKey k = false := rfl

theorem not_mem_new (e : String × String) : e ∉ New.Errors := by
  simp [New]

end validator

namespace data

open validator

/-- C20, on the code. `ValidateMovie`, run on a new validator, records the error
`"must be greater than 1888"` under `"year"` exactly when the year is not zero and is
less than 1888: the check it makes is `movie.Year >= 1888`, so that a movie whose year
is 1888 gets no such error, against the wording of the message; and the sample movie
with its year set to 1888 passes the whole validation. -/
theorem year_1888_passes_the_year_check (year : Int) (movie : Movie) :
    (("year", "must be greater than 1888") ∈ (ValidateMovie year validator.New movie).Errors ↔
      movie.Year ≠ 0 ∧ movie.Year < 1888) ∧
    (movie.Year = 1888 →
      ("year", "must be greater than 1888") ∉ (ValidateMovie year validator.New movie).Errors) ∧
    (ValidateMovie 2024 validator.New { api.sampleMovie with Year := 1888 }).Errors = [] ∧
    (ValidateMovie 2024 validator.New { api.sampleMovie with Year := 1888 }).Valid = true := by
  have hiff : ("year", "must be greater than 1888") ∈
      (ValidateMovie year validator.New movie).Errors ↔
      movie.Year ≠ 0 ∧ movie.Year < 1888 := by
    simp only [ValidateMovie, mem_check, hasKey_check, hasKey_new, not_mem_new]
    simp
    omega
  refine ⟨hiff, ?_, by decide, by decide⟩
  intro h hmem
  have := (hiff.1 hmem).2
  omega

end data

namespace mailer

/-- The retry loop of `Send` returns nil however its attempts end. -/
theorem retry_returns_nil (m : Mailer) (msg : Message) (left i : Nat) :
    (m.retry msg left i).err = none := by
  induction left generalizing i with
  | zero => rfl
  | succ k ih =>
    simp only [Mailer.retry]
    split
    · rfl
    · exact ih (i + 1)

/-- C19, on the code. With a dialer whose three attempts all fail and templates that
render, `Send` makes its three attempts, sleeps after each, and returns nil: the
statement after the loop is `return nil`, and the error of the last attempt is
dropped. -/
theorem send_returns_nil_after_three_failed_attempts :
    (∀ (attempt : Nat) (msg : Message),
      unreachableMailer.DialAndSend attempt msg = some "dial tcp: connection refused") ∧
    unreachableMailer.Send "alice@example.com" "user_welcome.tmpl" "alice"
      = { err := none, attempts := 3, sleeps := 3 } ∧
    (∀ (m : Mailer) (msg : Message), (m.retry msg 3 1).err = none) :=
  ⟨fun _ _ => rfl, by decide, fun m msg => retry_returns_nil m msg 3 1⟩

end mailer

namespace api

open data validator

/-! ## The route table and the chain -/

theorem routeTable_shape (app : application) (ext : externals) :
    (app.routeTable ext).map Route.shape =
      [("GET", "/v1/healthcheck", .activated),
       ("GET", "/v1/movies", .permission "movies:read"),
       ("POST", "/v1/movies", .permission "movies:write"),
       ("GET", "/v1/movies/:id", .permission "movies:read"),
       ("PATCH", "/v1/movies/:id", .permission "movies:write"),
       ("DELETE", "/v1/movies/:id", .permission "movies:write"),
       ("POST", "/v1/users", .free),
       ("PUT", "/v1/users/activated", .free),
       ("PUT", "/v1/users/password", .free),
       ("POST", "/v1/tokens/authentication", .free),
       ("POST", "/v1/tokens/password-reset", .free),
       ("POST", "/v1/tokens/activation", .free),
       ("GET", "/v1/metrics", .free)] := rfl

/-- C16. In the route table built by `routes`: the healthcheck endpoint is registered
behind `requireActivatedUser` alone, so that an activated user reaches its handler
whatever the permission store says; every `/v1/movies` endpoint is registered behind
`requirePermission`, which checks authentication, activation and then the permission
code, and the code is `movies:read` for the two GET endpoints and `movies:write` for the
POST, PATCH and DELETE endpoints. -/
theorem movie_routes_are_gated_by_permission (app : application) (ext : externals) :
    ((app.routeTable ext).filter fun route => decide (route.Pattern = "/v1/healthcheck")).map
        Route.shape = [("GET", "/v1/healthcheck", .activated)] ∧
    ((app.routeTable ext).filter Route.isMovies).map Route.shape =
      [("GET", "/v1/movies", .permission "movies:read"),
       ("POST", "/v1/movies", .permission "movies:write"),
       ("GET", "/v1/movies/:id", .permission "movies:read"),
       ("PATCH", "/v1/movies/:id", .permission "movies:write"),
       ("DELETE", "/v1/movies/:id", .permission "movies:write")] ∧
    (∀ route ∈ app.routeTable ext, route.Pattern = "/v1/healthcheck" →
      route.gate = .activated ∧
      route.registered app = app.requireActivatedUser route.handler ∧
      ∀ (w : ResponseWriter) (r : Request) (world : World) (record : UserRecord),
        r.user = some (.loaded record) → record.Activated = true →
        route.registered app w r world = route.handler w r world) ∧
    (∀ route ∈ app.routeTable ext, route.isMovies = true →
      route.gate =
        .permission (if route.Method = "GET" then "movies:read" else "movies:write") ∧
      route.registered app =
        app.requirePermission (if route.Method = "GET" then "movies:read" else "movies:write")
          route.handler ∧
      ∀ (w : ResponseWriter) (r : Request) (world : World) (user : User),
        r.user = some user →
        route.registered app w r world =
          if user.IsAnonymous then app.authenticationRequiredResponse w r world
          else if user.Activated then
            match app.GetAllForUser user.ID with
            | .error err => app.serverErrorResponse w r err world
            | .ok permissions =>
                if Permissions.Include permissions
                    (if route.Method = "GET" then "movies:read" else "movies:write") then
                  route.handler w r world
                else app.notPermittedResponse w r world
          else app.inactiveAccountResponse w r world) := by
  have hshape := routeTable_shape app ext
  have hhealth : ∀ x ∈ (app.routeTable ext).map Route.shape,
      x.2.1 = "/v1/healthcheck" → x.2.2 = .activated := by
    rw [hshape]; decide
  have hmovies : ∀ x ∈ (app.routeTable ext).map Route.shape,
      "/v1/movies".data.isPrefixOf x.2.1.data = true →
      x.2.2 = .permission (if x.1 = "GET" then "movies:read" else "movies:write") := by
    rw [hshape]; decide
  refine ⟨?_, ?_, ?_, ?_⟩
  · rfl
  · rfl
  · intro route hmem hpat
    have hgate : route.gate = .activated :=
      hhealth route.shape (List.mem_map_of_mem _ hmem) hpat
    have hreg : route.registered app = app.requireActivatedUser route.handler := by
      simp [Route.registered, hgate, Gate.wrap]
    refine ⟨hgate, hreg, ?_⟩
    intro w r world record huser hact
    rw [hreg, requireActivatedUser_eq app _ w r world _ huser]
    simp [User.IsAnonymous, User.Activated, hact]
  · intro route hmem hmov
    have hgate := hmovies route.shape (List.mem_map_of_mem _ hmem) hmov
    have hreg : route.registered app =
        app.requirePermission (if route.Method = "GET" then "movies:read" else "movies:write")
          route.handler := by
      simp only [Route.registered]
      rw [show route.gate = _ from hgate]
      rfl
    refine ⟨hgate, hreg, ?_⟩
    intro w r world user huser
    rw [hreg, requirePermission_eq app _ _ w r world user huser]

/-- C18. For every handler `next` under it, `recoverPanic(next)` does not let a panic of
`next` through: its outcome never carries a panic; when `next` panics, the wrapper sets
the header `Connection: close` on the response of that request and answers it with the
server-error response built from the panic value, on top of what `next` had written and
in the world that `next` left; when `next` does not panic, the outcome is the outcome of
`next`, with nothing added. -/
theorem recoverPanic_contains_a_panic (app : application) (next : Limited) (cs : clients)
    (w : ResponseWriter) (r : Request) (world : World) :
    (app.recoverPanic next cs w r world).2.panicked = none ∧
    (∀ value, (next cs w r world).2.panicked = some value →
      app.recoverPanic next cs w r world =
        ((next cs w r world).1,
          app.serverErrorResponse ((next cs w r world).2.w.HeaderSet "Connection" "close") r
            (.other value) (next cs w r world).2.world) ∧
      (app.recoverPanic next cs w r world).2.w.written =
        (next cs w r world).2.w.written ++ [.serverError (.other value)] ∧
      ("Connection", "close") ∈ (app.recoverPanic next cs w r world).2.w.Header ∧
      (app.recoverPanic next cs w r world).2.world = (next cs w r world).2.world ∧
      (app.recoverPanic next cs w r world).1 = (next cs w r world).1) ∧
    ((next cs w r world).2.panicked = none →
      app.recoverPanic next cs w r world = next cs w r world) := by
  refine ⟨?_, ?_, ?_⟩
  · unfold application.recoverPanic
    cases h : (next cs w r world).2.panicked with
    | none => simp [h]
    | some value => simp [h, application.serverErrorResponse, respond]
  · intro value h
    have heq : app.recoverPanic next cs w r world =
        ((next cs w r world).1,
          app.serverErrorResponse ((next cs w r world).2.w.HeaderSet "Connection" "close") r
            (.other value) (next cs w r world).2.world) := by
      unfold application.recoverPanic
      simp [h]
    refine ⟨heq, ?_, ?_, ?_, ?_⟩
    · rw [heq]; rfl
    · rw [heq]
      simp [application.serverErrorResponse, respond, ResponseWriter.HeaderSet]
    · rw [heq]; rfl
    · rw [heq]
  · intro h
    unfold application.recoverPanic
    simp [h]

/-- C18, at an instance: a handler that panics with the value `boom`. -/
theorem recoverPanic_contains_a_panic_witness :
    (sampleApp.recoverPanic samplePanic (fun _ => none) sampleWriter samplePatch
      sampleWorld).2
      = { w := { Header := [("Connection", "close")],
                 written := [.serverError (.other "boom")] },
          world := sampleWorld, panicked := none } :=
  (congrArg Prod.snd
    ((recoverPanic_contains_a_panic sampleApp samplePanic (fun _ => none) sampleWriter
      samplePatch sampleWorld).2.1 "boom" rfl).1).trans rfl

/-- A wrapper above the rate limiter treats two handlers alike when they act alike on the
client map and the request at hand. -/
theorem enableCORS_congr (app : application) (one two : Limited) (cs : clients)
    (w : ResponseWriter) (r : Request) (world : World)
    (h : ∀ (w' : ResponseWriter) (world' : World), one cs w' r world' = two cs w' r world') :
    app.enableCORS one cs w r world = app.enableCORS two cs w r world := by
  unfold application.enableCORS
  simp only [h]

theorem recoverPanic_congr (app : application) (one two : Limited) (cs : clients)
    (w : ResponseWriter) (r : Request) (world : World)
    (h : one cs w r world = two cs w r world) :
    app.recoverPanic one cs w r world = app.recoverPanic two cs w r world := by
  unfold application.recoverPanic
  simp only [h]

/-- When the limiter refuses the client, the request path answers with the
rate-limit-exceeded response whatever handler stands behind it. -/
theorem rateLimit_of_reject (app : application) (inner : Handler) (cs : clients) (now : Int)
    (w : ResponseWriter) (r : Request) (world : World) (ip port : String)
    (hen : app.config.limiter.enabled = true)
    (hsplit : app.SplitHostPort r.RemoteAddr = .ok (ip, port))
    (hreject : ((app.limiterOf cs ip).Allow now).2 = false) :
    app.rateLimit inner cs now w r world =
      (Function.update cs ip
          (some { limiter := ((app.limiterOf cs ip).Allow now).1, lastSeen := now }),
        app.rateLimitExceededResponse w r world) := by
  rw [rateLimit_of_split app inner cs now w r world ip port hen hsplit, hreject]
  simp

theorem chain_congr (app other : application) (one two : Handler) (now : Int)
    (cs : clients) (w : ResponseWriter) (r : Request) (world : World)
    (hconfig : other.config = app.config)
    (h : ∀ (w' : ResponseWriter) (world' : World),
      other.rateLimit (other.authenticate one) cs now w' r world'
        = app.rateLimit (app.authenticate two) cs now w' r world') :
    other.chain one now cs w r world = app.chain two now cs w r world := by
  have hcors :
      other.enableCORS (fun cs => other.rateLimit (other.authenticate one) cs now) cs w r
          world =
        app.enableCORS (fun cs => app.rateLimit (app.authenticate two) cs now) cs w r
          world := by
    unfold application.enableCORS
    simp only [hconfig, h]
  unfold application.chain application.metrics application.recoverPanic
  simp only [hcors]
  rfl

/-- The chain leaves the world as the rate limiter's refusal leaves it. -/
theorem chain_world_of_reject (app : application) (inner : Handler) (now : Int)
    (cs : clients) (w : ResponseWriter) (r : Request) (world : World)
    (h : ∀ (w' : ResponseWriter) (world' : World),
      (app.rateLimit (app.authenticate inner) cs now w' r world').2
        = app.rateLimitExceededResponse w' r world') :
    (app.chain inner now cs w r world).2.world = world ∧
    (app.chain inner now cs w r world).2.panicked = none := by
  have hcors :
      (app.enableCORS (fun cs => app.rateLimit (app.authenticate inner) cs now) cs w r
          world).2.world = world ∧
      (app.enableCORS (fun cs => app.rateLimit (app.authenticate inner) cs now) cs w r
          world).2.panicked = none := by
    unfold application.enableCORS
    simp only
    split
    · split
      · exact ⟨rfl, rfl⟩
      · rw [h]; exact ⟨rfl, rfl⟩
    · rw [h]; exact ⟨rfl, rfl⟩
  unfold application.chain application.metrics application.recoverPanic
  simp only [hcors.2]
  exact ⟨hcors.1, trivial⟩

/-- C17. The handler returned by `routes` is `metrics(recoverPanic(enableCORS(rateLimit(
authenticate(router)))))`, the router holding every route's authorization wrapper and
handler. For a request whose client the limiter refuses, the request path of `rateLimit`
answers with the rate-limit-exceeded response whatever handler stands behind it, and the
whole chain gives the same outcome for every router and every token store and leaves the
world, with its record of token lookups, as it was: neither `authenticate` nor a route
handler is run. For a request that the limiter admits, the request path hands over to
`authenticate` around the router. -/
theorem rejected_request_stops_at_the_rate_limiter (app : application) (ext : externals)
    (now : Int) (cs : clients) (w : ResponseWriter) (r : Request) (world : World)
    (ip port : String) (hen : app.config.limiter.enabled = true)
    (hsplit : app.SplitHostPort r.RemoteAddr = .ok (ip, port)) :
    app.routes ext now =
      app.metrics (app.recoverPanic (app.enableCORS fun cs =>
        app.rateLimit (app.authenticate (app.router ext)) cs now)) ∧
    (((app.limiterOf cs ip).Allow now).2 = false →
      (∀ inner : Handler,
        app.rateLimit inner cs now w r world =
          (Function.update cs ip
              (some { limiter := ((app.limiterOf cs ip).Allow now).1, lastSeen := now }),
            app.rateLimitExceededResponse w r world)) ∧
      (app.rateLimit (app.authenticate (app.router ext)) cs now w r world).2.w.written
        = w.written ++ [.rateLimitExceeded] ∧
      (∀ (router : Handler) (lookup : String → String → Except Error UserRecord),
        ({ app with GetForToken := lookup } : application).chain router now cs w r world
          = app.routes ext now cs w r world) ∧
      (app.routes ext now cs w r world).2.world = world ∧
      (app.routes ext now cs w r world).2.world.lookups = world.lookups ∧
      (app.routes ext now cs w r world).2.panicked = none) ∧
    (((app.limiterOf cs ip).Allow now).2 = true →
      app.rateLimit (app.authenticate (app.router ext)) cs now w r world =
        (Function.update cs ip
            (some { limiter := ((app.limiterOf cs ip).Allow now).1, lastSeen := now }),
          app.authenticate (app.router ext) w r world)) := by
  refine ⟨rfl, ?_, ?_⟩
  · intro hreject
    have hrej : ∀ (a : application) (inner : Handler) (w' : ResponseWriter)
        (world' : World), a.config = app.config → a.SplitHostPort = app.SplitHostPort →
        a.rateLimit inner cs now w' r world' =
          (Function.update cs ip
              (some { limiter := ((app.limiterOf cs ip).Allow now).1, lastSeen := now }),
            app.rateLimitExceededResponse w' r world') := by
      intro a inner w' world' hc hs
      have hlim : a.limiterOf cs ip = app.limiterOf cs ip := by
        simp [application.limiterOf, hc]
      have := rateLimit_of_reject a inner cs now w' r world' ip port (by rw [hc]; exact hen)
        (by rw [hs]; exact hsplit) (by rw [hlim]; exact hreject)
      rw [this, hlim]
      rfl
    have hworld := chain_world_of_reject app (app.router ext) now cs w r
      world (fun w' world' => by rw [hrej app _ w' world' rfl rfl])
    refine ⟨fun inner => hrej app inner w world rfl rfl, ?_, ?_, hworld.1, ?_, hworld.2⟩
    · rw [hrej app _ w world rfl rfl]; rfl
    · intro router lookup
      exact chain_congr app { app with GetForToken := lookup } router
        (app.router ext) now cs w r world rfl
        (fun w' world' => by
          rw [hrej { app with GetForToken := lookup } _ w' world' rfl rfl,
            hrej app _ w' world' rfl rfl])
    · rw [show (app.routes ext now cs w r world).2.world = world from hworld.1]
  · intro hadmit
    rw [rateLimit_of_split app _ cs now w r world ip port hen hsplit, hadmit]
    simp

/-- C17, at an instance: with the burst set to 0 the sample request is refused by the
limiter, and the chain leaves the world untouched. -/
theorem rejected_request_stops_at_the_rate_limiter_witness :
    (sampleAppNoBurst.routes sampleExternals 0 (fun _ => none) sampleWriter
      (sampleArrival ("Bearer " ++ sampleToken)) sampleWorld).2.world = sampleWorld :=
  ((rejected_request_stops_at_the_rate_limiter sampleAppNoBurst sampleExternals 0
    (fun _ => none) sampleWriter (sampleArrival ("Bearer " ++ sampleToken)) sampleWorld
    "10.0.0.1" "5000" rfl rfl).2.1
    (allow_of_no_burst _ 0 (by decide)).1).2.2.2.1

end api

namespace api

open data validator

/-! ## The record that a PATCH request updates -/

/-- The record after the four conditional assignments, field by field. -/
theorem copyTo_eq (input : updateInput) (stored : Movie) :
    input.copyTo stored =
      { ID := stored.ID, CreatedAt := stored.CreatedAt,
        Title := input.Title.getD stored.Title,
        Year := input.Year.getD stored.Year,
        Runtime := input.Runtime.getD stored.Runtime,
        Genres := match input.Genres with
          | some genres => some genres
          | none => stored.Genres,
        Version := stored.Version } := by
  obtain ⟨title, year, runtime, genres⟩ := input
  cases title <;> cases year <;> cases runtime <;> cases genres <;> rfl

/-- Once the id is read, the record found and the body decoded, `updateMovieHandler`
validates the merged record and, if it is valid, calls `Update` with it. -/
theorem updateMovieHandler_of_decoded (app : application) (w : ResponseWriter) (r : Request)
    (world : World) (id : Int) (m : MovieModel) (stored : Movie) (input : updateInput)
    (hid : app.readIDParam r = .ok id)
    (hget : world.Movies.Get id = (m, .ok stored))
    (hbody : app.readJSON r = .ok input) :
    app.updateMovieHandler w r world =
      if (ValidateMovie world.year validator.New (input.copyTo stored)).Valid then
        let updated := (m.run world.concurrent).Update (input.copyTo stored)
        let after : World := { world with Movies := updated.m, concurrent := [] }
        match updated.err with
        | some .ErrEditConflict => app.editConflictResponse w r after
        | some err => app.serverErrorResponse w r err after
        | none =>
            match app.writeJSON w 200 (.movie updated.movie) [] with
            | (w, some err) => app.serverErrorResponse w r err after
            | (w, none) => { w := w, world := after, panicked := none }
      else
        app.failedValidationResponse w r
          (ValidateMovie world.year validator.New (input.copyTo stored)).Errors
          { world with Movies := m } := by
  simp only [application.updateMovieHandler, hid, hget, hbody]
  cases hv : (ValidateMovie world.year validator.New (input.copyTo stored)).Valid with
  | true => simp only [Bool.not_true, Bool.false_eq_true, if_false, if_true]
  | false => simp only [Bool.not_false, if_true, Bool.false_eq_true, if_false]

/-- C21. For the movie that `updateMovieHandler` has read from the store and the decoded
PATCH input, the record that the handler validates with `ValidateMovie` and passes to
`MovieModel.Update` takes title, year, runtime and genres from the input where the input
supplies them and keeps the stored value of each of them that the input omits; its ID,
CreatedAt and Version are those of the stored movie whatever the input is. -/
theorem patch_merges_input_into_stored_record (app : application) (w : ResponseWriter)
    (r : Request) (world : World) (id : Int) (m : MovieModel) (stored : Movie)
    (input : updateInput)
    (hid : app.readIDParam r = .ok id)
    (hget : world.Movies.Get id = (m, .ok stored))
    (hbody : app.readJSON r = .ok input) :
    (app.updateMovieHandler w r world =
      if (ValidateMovie world.year validator.New (input.copyTo stored)).Valid then
        let updated := (m.run world.concurrent).Update (input.copyTo stored)
        let after : World := { world with Movies := updated.m, concurrent := [] }
        match updated.err with
        | some .ErrEditConflict => app.editConflictResponse w r after
        | some err => app.serverErrorResponse w r err after
        | none =>
            match app.writeJSON w 200 (.movie updated.movie) [] with
            | (w, some err) => app.serverErrorResponse w r err after
            | (w, none) => { w := w, world := after, panicked := none }
      else
        app.failedValidationResponse w r
          (ValidateMovie world.year validator.New (input.copyTo stored)).Errors
          { world with Movies := m }) ∧
    input.copyTo stored =
      { ID := stored.ID, CreatedAt := stored.CreatedAt,
        Title := input.Title.getD stored.Title,
        Year := input.Year.getD stored.Year,
        Runtime := input.Runtime.getD stored.Runtime,
        Genres := match input.Genres with
          | some genres => some genres
          | none => stored.Genres,
        Version := stored.Version } ∧
    ((∀ title, input.Title = some title → (input.copyTo stored).Title = title) ∧
      (input.Title = none → (input.copyTo stored).Title = stored.Title)) ∧
    ((∀ year, input.Year = some year → (input.copyTo stored).Year = year) ∧
      (input.Year = none → (input.copyTo stored).Year = stored.Year)) ∧
    ((∀ runtime, input.Runtime = some runtime → (input.copyTo stored).Runtime = runtime) ∧
      (input.Runtime = none → (input.copyTo stored).Runtime = stored.Runtime)) ∧
    ((∀ genres, input.Genres = some genres → (input.copyTo stored).Genres = some genres) ∧
      (input.Genres = none → (input.copyTo stored).Genres = stored.Genres)) ∧
    (∀ body : updateInput,
      (body.copyTo stored).ID = stored.ID ∧
      (body.copyTo stored).CreatedAt = stored.CreatedAt ∧
      (body.copyTo stored).Version = stored.Version) := by
  refine ⟨updateMovieHandler_of_decoded app w r world id m stored input hid hget hbody,
    copyTo_eq input stored, ?_, ?_, ?_, ?_, fun body => copyTo_keeps body stored⟩
  · rw [copyTo_eq]
    exact ⟨fun title h => by simp [h], fun h => by simp [h]⟩
  · rw [copyTo_eq]
    exact ⟨fun year h => by simp [h], fun h => by simp [h]⟩
  · rw [copyTo_eq]
    exact ⟨fun runtime h => by simp [h], fun h => by simp [h]⟩
  · rw [copyTo_eq]
    exact ⟨fun genres h => by simp [h], fun h => by simp [h]⟩

/-- C21, at an instance: the sample PATCH request, whose body sets only the runtime. -/
theorem patch_merges_input_into_stored_record_witness :
    ({ Title := none, Year := none, Runtime := some 103, Genres := none } :
        updateInput).copyTo sampleMovie =
      { ID := sampleMovie.ID, CreatedAt := sampleMovie.CreatedAt,
        Title := (none : Option String).getD sampleMovie.Title,
        Year := (none : Option Int).getD sampleMovie.Year,
        Runtime := (some 103 : Option Int).getD sampleMovie.Runtime,
        Genres := sampleMovie.Genres,
        Version := sampleMovie.Version } :=
  (patch_merges_input_into_stored_record sampleApp sampleWriter samplePatch sampleWorld 1
    sampleModel sampleMovie
    { Title := none, Year := none, Runtime := some 103, Genres := none } rfl rfl rfl).2.1

end api
